import Mathlib

/-!
Verification of the reconciliation engine of the air-customer-system repository.

The definitions below are a shallow embedding of the JavaScript source:
  * `api/services/googleCalendar.js`  — calendar sync (`syncJobToCalendar`,
    `createDateRangeEvents`, `createSingleDateEvent`, `normalizeTime`,
    `findExistingEvent`);
  * `googleSheets.js` — the job store (`getNextJobId`, `updateJobStatus`,
    `updateJobEventId`);
  * the auto-detection service — drift detection (`checkEventMoved`,
    `searchEventInPersonalCalendars`, `processJobAutoDetection`,
    `runDailyAutoDetection`);
  * the scheduler service (`startDailyAutoDetection`, `stopDailyAutoDetection`).

External effects (Google Calendar, Google Sheets) are modelled by explicit
state: a calendar state, a sheet store, and a drift world, threaded through
the functions.  JavaScript strings are modelled by `String`; the JS
truthiness test `!s` on a string is `s = ""`.
-/

/-! ## JS string helpers -/

/-- JS `a || b` for strings: empty string is falsy. -/
def strOr (a b : String) : String := if a = "" then b else a

/-- Whether `pat` is a prefix of the second list. -/
def listBeginsWith : List Char → List Char → Bool
  | [], _ => true
  | _ :: _, [] => false
  | a :: as, b :: bs => a = b && listBeginsWith as bs

/-- Whether `pat` occurs as a contiguous run in the list. -/
def listHasInfix (pat : List Char) : List Char → Bool
  | [] => pat.isEmpty
  | b :: bs => listBeginsWith pat (b :: bs) || listHasInfix pat bs

/-- JS `String.prototype.includes`: substring containment. -/
def jsIncludes (s pat : String) : Bool := listHasInfix pat.data s.data

/-- JS `String.prototype.startsWith`. -/
def jsStartsWith (s pat : String) : Bool := listBeginsWith pat.data s.data

/-- Lexicographic `<` on char lists (JS string comparison). -/
def charsLt : List Char → List Char → Bool
  | [], [] => false
  | [], _ :: _ => true
  | _ :: _, [] => false
  | a :: as, b :: bs => if a < b then true else if b < a then false else charsLt as bs

/-- JS `a >= b` on strings (lexicographic). -/
def jsGe (a b : String) : Bool := !(charsLt a.data b.data)

/-- JS `String.prototype.trim` (whitespace at both ends removed). -/
def jsTrim (s : String) : String :=
  String.mk (((s.data.dropWhile Char.isWhitespace).reverse.dropWhile Char.isWhitespace).reverse)

/-- `padStart(2, '0')` for strings of length at most 2 (hour/minute parts). -/
def padTwo (l : List Char) : List Char := if l.length = 1 then '0' :: l else l

/-- `String(n).padStart(6, '0')` for a non-negative integer. -/
def padSix (s : String) : String :=
  String.mk (List.replicate (6 - s.length) '0' ++ s.data)

/-- Digits of a char list read as a base-10 number (used for `parseInt`). -/
def digitsToNat (l : List Char) : Nat := l.foldl (fun acc c => acc * 10 + (c.toNat - 48)) 0

/-- Leading decimal-digit run of a char list, as a number; `none` if there is
no leading digit.  Models the core of JS `parseInt` on a radix-10 numeral. -/
def parseNatChars (l : List Char) : Option Nat :=
  let ds := l.takeWhile Char.isDigit
  if ds = [] then none else some (digitsToNat ds)

/-- JS `parseInt(s)`: skip leading whitespace, optional sign, parse the
leading digit run, `NaN` (here `none`) otherwise.  Radix prefixes such as
`0x` are not modelled; no claim exercises them. -/
def parseIntStr (s : String) : Option Int :=
  match s.data.dropWhile Char.isWhitespace with
  | [] => none
  | c :: rest =>
    if c = '-' then (parseNatChars rest).map (fun n => -(n : Int))
    else if c = '+' then (parseNatChars rest).map (fun n => (n : Int))
    else (parseNatChars (c :: rest)).map (fun n => (n : Int))

/-! ## TimeNormalizer — `normalizeTime` in `createSingleDateEvent`
(googleCalendar.js lines 207–249).

The source tests the trimmed input against a sequence of regular
expressions.  Each accepted shape is one predicate below; the branch order
of the source is kept (the shapes are pairwise disjoint, distinguished by
length and colon position, so the order does not matter). -/

/-- Regex `^\d{1,2}:\d{2}$` (shapes `H:MM` and `HH:MM`). -/
def reHoursColonMM : List Char → Bool
  | [a, b, c, d] => a.isDigit && b = ':' && c.isDigit && d.isDigit
  | [a, b, c, d, e] => a.isDigit && b.isDigit && c = ':' && d.isDigit && e.isDigit
  | _ => false

/-- Regex `^\d{1,2}$` (bare hour digits). -/
def reBareHours : List Char → Bool
  | [a] => a.isDigit
  | [a, b] => a.isDigit && b.isDigit
  | _ => false

/-- Regex `^\d{1,2}:\d{1}$` (shapes `H:M` and `HH:M`). -/
def reHoursColonM : List Char → Bool
  | [a, b, c] => a.isDigit && b = ':' && c.isDigit
  | [a, b, c, d] => a.isDigit && b.isDigit && c = ':' && d.isDigit
  | _ => false

/-- Regex `^\d{3,4}$` (compact forms `900`, `1700`). -/
def reCompact : List Char → Bool
  | [a, b, c] => a.isDigit && b.isDigit && c.isDigit
  | [a, b, c, d] => a.isDigit && b.isDigit && c.isDigit && d.isDigit
  | _ => false

/-- Any of the accepted input shapes of `normalizeTime`. -/
def acceptedTimeShape (l : List Char) : Bool :=
  reHoursColonMM l || reBareHours l || reHoursColonM l || reCompact l

/-- `normalizeTime` (googleCalendar.js lines 207–249).  `!time` is the JS
falsiness test, here `time = ""`.  On a colon shape the source splits at the
colon and pads each part with `padStart(2, '0')`. -/
def normalizeTime (time : String) : Option String :=
  if time = "" then none else
  let l := (jsTrim time).data
  if reHoursColonMM l then
    let h := l.takeWhile (fun c => !(c = ':'))
    some (String.mk (padTwo h ++ ':' :: l.drop (h.length + 1)))
  else if reBareHours l then
    some (String.mk (padTwo l ++ [':', '0', '0']))
  else if reHoursColonM l then
    let h := l.takeWhile (fun c => !(c = ':'))
    some (String.mk (padTwo h ++ ':' :: padTwo (l.drop (h.length + 1))))
  else if reCompact l then
    if l.length = 3 then some (String.mk ('0' :: l.take 1 ++ ':' :: l.drop 1))
    else some (String.mk (l.take 2 ++ ':' :: l.drop 2))
  else none

/-! ## End-time repair — `createSingleDateEvent` lines 164–197.

`startTime`/`endTime` default to `09:00`/`17:00` when the job fields are
empty; an end time of `0:00`/`00:00` is treated as corrupted and repaired
by a `switch` on `time_window`. -/

/-- Lines 164–197: resolve the effective `(startTime, endTime)` pair before
normalization, including the midnight-end repair policy. -/
def resolveStartEnd (start_time end_time time_window : String) : String × String :=
  if strOr end_time "17:00" = "0:00" ∨ strOr end_time "17:00" = "00:00" then
    if time_window = "AM" then ("09:00", "12:00")
    else if time_window = "PM" then ("13:00", "17:00")
    else if time_window = "All Day" then ("08:00", "18:00")
    else if strOr start_time "09:00" = "09:00" ∨ strOr start_time "09:00" = "9:00" then
      (strOr start_time "09:00", "12:00")
    else if jsGe (strOr start_time "09:00") "13:00" then (strOr start_time "09:00", "17:00")
    else (strOr start_time "09:00", "17:00")
  else (strOr start_time "09:00", strOr end_time "17:00")

/-- The spec's words for the no-window fallback of the repair policy:
"start ≥ 13:00 ⇒ end 17:00, else end 12:00".  Kept separately so the claim
can be compared with the source behaviour. -/
def specFallbackEnd (startTime : String) : String :=
  if jsGe startTime "13:00" then "17:00" else "12:00"

/-! ## Job-id generation — `getNextJobId` (googleSheets.js lines 101–128). -/

/-- A job record, keyed by the sheet columns.  All fields are strings, the
empty string standing for a missing cell, exactly as `getAllJobs` produces
(`row[index] || ''`). -/
structure JobRec where
  job_id : String := ""
  date : String := ""
  date_type : String := ""
  start_date : String := ""
  end_date : String := ""
  time_window : String := ""
  team : String := ""
  zone : String := ""
  status : String := ""
  customer : String := ""
  customer_name : String := ""
  customer_phone : String := ""
  customer_address : String := ""
  phone : String := ""
  address : String := ""
  notes : String := ""
  eventId : String := ""
  calendar_event_id : String := ""
  type : String := ""
  job_description : String := ""
  details : String := ""
  map_url : String := ""
  is_calendar : String := ""
  start_time : String := ""
  end_time : String := ""
  customer_id : String := ""
  branch : String := ""
  created_date : String := ""
  updated_date : String := ""
deriving DecidableEq, Repr, Inhabited

/-- The per-id filter of `getNextJobId`: not empty, not blank after trim,
not `"/"`, and starting with `JOB-`. -/
def validJobIdForMax (s : String) : Bool :=
  s ≠ "" && jsTrim s ≠ "" && s ≠ "/" && jsStartsWith s "JOB-"

/-- One fold step of `getNextJobId`: `job.job_id.replace('JOB-','')` on an id
that starts with `JOB-` is modelled as dropping its first four characters,
then `parseInt`; the value is kept when it beats the max so far. -/
def nextJobIdStep (maxId : Int) (j : JobRec) : Int :=
  if validJobIdForMax j.job_id then
    match parseIntStr (String.mk (j.job_id.data.drop 4)) with
    | some idNum => if maxId < idNum then idNum else maxId
    | none => maxId
  else maxId

/-- `getNextJobId` (googleSheets.js lines 101–128) on the job list returned
by `getAllJobs`. -/
def getNextJobId (jobs : List JobRec) : String :=
  let maxId := jobs.foldl nextJobIdStep 0
  "JOB-" ++ padSix (toString (maxId + 1))

/-- Numeric value of a well-formed `JOB-######` id (exactly six digits),
`none` on any other string.  This is the spec's notion of a well-formed id. -/
def wellFormedJobIdNum (s : String) : Option Nat :=
  if s.data.take 4 = ['J', 'O', 'B', '-'] ∧ (s.data.drop 4).length = 6 ∧
      (s.data.drop 4).all Char.isDigit then
    some (digitsToNat (s.data.drop 4))
  else none

/-- Modelled from the spec's words for `getNextJobId`: "(maximum numeric
suffix among well-formed `JOB-######` ids) + 1, formatted with 6-digit zero
padding; malformed ids are ignored". -/
def getNextJobIdSpec (jobs : List JobRec) : String :=
  let maxId := (jobs.filterMap (fun j => wellFormedJobIdNum j.job_id)).foldl max 0
  "JOB-" ++ padSix (toString (maxId + 1))

/-! ## Calendar dates.

`createDateRangeEvents` iterates JS `Date` objects day by day and renders
each as `toISOString().split('T')[0]`; `createSingleDateEvent` builds
`Date`s from `YYYY-MM-DDTHH:MM:00+07:00` strings and validates them with
`isNaN(getTime())`.  Dates are modelled as day numbers relative to
1970-01-01 (the civil-calendar algorithms below), strings in the canonical
`YYYY-MM-DD` form.  Non-canonical inputs that the JS `Date` parser would
still accept are modelled as invalid; no claim exercises them. -/

/-- Leap year (proleptic Gregorian, as JS `Date`). -/
def isLeapYear (y : Int) : Bool := (y % 4 = 0 && y % 100 ≠ 0) || y % 400 = 0

/-- Days in a month. -/
def daysInMonth (y : Int) (m : Nat) : Nat :=
  if m = 2 then (if isLeapYear y then 29 else 28)
  else if m = 4 ∨ m = 6 ∨ m = 9 ∨ m = 11 then 30 else 31

/-- Day number of a civil date, days since 1970-01-01. -/
def daysFromCivil (y : Int) (m d : Nat) : Int :=
  let y' : Int := if m ≤ 2 then y - 1 else y
  let era : Int := (if 0 ≤ y' then y' else y' - 399) / 400
  let yoe : Nat := (y' - era * 400).toNat
  let mp : Nat := (m + 9) % 12
  let doy : Nat := (153 * mp + 2) / 5 + d - 1
  let doe : Nat := yoe * 365 + yoe / 4 - yoe / 100 + doy
  era * 146097 + (doe : Int) - 719468

/-- Civil date of a day number (inverse of `daysFromCivil`). -/
def civilFromDays (z : Int) : Int × Nat × Nat :=
  let z' : Int := z + 719468
  let era : Int := (if 0 ≤ z' then z' else z' - 146096) / 146097
  let doe : Nat := (z' - era * 146097).toNat
  let yoe : Nat := (doe - doe / 1460 + doe / 36524 - doe / 146096) / 365
  let doy : Nat := doe - (365 * yoe + yoe / 4 - yoe / 100)
  let mp : Nat := (5 * doy + 2) / 153
  let d : Nat := doy - (153 * mp + 2) / 5 + 1
  let m : Nat := if mp < 10 then mp + 3 else mp - 9
  let y : Int := (yoe : Int) + era * 400 + (if m ≤ 2 then 1 else 0)
  (y, m, d)

/-- Zero-padded decimal rendering of a number to a given width. -/
def padNum (width n : Nat) : String :=
  let s := toString n
  String.mk (List.replicate (width - s.length) '0' ++ s.data)

/-- `YYYY-MM-DD` rendering of a day number (JS `toISOString().split('T')[0]`). -/
def renderDay (z : Int) : String :=
  let c := civilFromDays z
  (if c.1 < 0 then "-" ++ padNum 4 (-c.1).toNat else padNum 4 c.1.toNat)
    ++ "-" ++ padNum 2 c.2.1 ++ "-" ++ padNum 2 c.2.2

/-- Parse a canonical `YYYY-MM-DD` string to a day number, validating month
and day ranges (JS `new Date` yields `NaN` for out-of-range components). -/
def parseDate (s : String) : Option Int :=
  match s.data with
  | [y1, y2, y3, y4, '-', m1, m2, '-', d1, d2] =>
    if y1.isDigit && y2.isDigit && y3.isDigit && y4.isDigit &&
       m1.isDigit && m2.isDigit && d1.isDigit && d2.isDigit then
      let y : Int := (digitsToNat [y1, y2, y3, y4] : Nat)
      let m := digitsToNat [m1, m2]
      let d := digitsToNat [d1, d2]
      if 1 ≤ m && m ≤ 12 && 1 ≤ d && d ≤ daysInMonth y m then
        some (daysFromCivil y m d)
      else none
    else none
  | _ => none

/-- Validity of an `HH:MM` time component inside a JS date-time string:
hours 00–23 with minutes 00–59, or the ECMA-262 special form `24:00`. -/
def timeValid (t : String) : Bool :=
  match t.data with
  | [h1, h2, ':', m1, m2] =>
    h1.isDigit && h2.isDigit && m1.isDigit && m2.isDigit &&
      (let h := digitsToNat [h1, h2]
       let m := digitsToNat [m1, m2]
       (h < 24 && m < 60) || (h = 24 && m = 0))
  | _ => false

/-- Minutes past midnight of a valid `HH:MM` string (0 on other shapes). -/
def minutesOfTime (t : String) : Nat :=
  match t.data with
  | [h1, h2, ':', m1, m2] => digitsToNat [h1, h2] * 60 + digitsToNat [m1, m2]
  | _ => 0

/-- JS `Date.prototype.toISOString` of the instant `day` + `mins` minutes in
UTC+07:00 (the `+07:00` suffix the source appends). -/
def isoOfBangkok (day : Int) (mins : Nat) : String :=
  let total : Int := day * 1440 + (mins : Int) - 420
  let q : Int := Int.ediv total 1440
  let r : Nat := (Int.emod total 1440).toNat
  renderDay q ++ "T" ++ padNum 2 (r / 60) ++ ":" ++ padNum 2 (r % 60) ++ ":00.000Z"

/-! ## Sheet store — `googleSheets.js`.

The store is the `getAllJobs` snapshot (rows in the order the service
returns them) plus, for failure modelling, the set of job ids whose sheet
writes fail with a transport error.  Row writes `updateJobStatus` /
`updateJobEventId` locate the first row whose `job_id` matches (`findIndex`)
and patch one field; the locale-formatted timestamp columns they also touch
are not modelled (no claim mentions them). -/

structure SheetStore where
  jobs : List JobRec
  failWrites : List String := []
deriving DecidableEq, Repr

/-- Patch the first list entry satisfying `p` (JS `findIndex` + row write);
`none` when `findIndex` returns −1 and the service throws `not found`. -/
def updateFirstJob (p : JobRec → Bool) (f : JobRec → JobRec) : List JobRec → Option (List JobRec)
  | [] => none
  | j :: rest =>
    if p j then some (f j :: rest)
    else (updateFirstJob p f rest).map (fun js => j :: js)

/-- `updateJobEventId` (googleSheets.js lines 266–296). -/
def updateJobEventId (st : SheetStore) (jobId eventIdNew : String) : Except String SheetStore :=
  match updateFirstJob (fun j => j.job_id = jobId) (fun j => { j with eventId := eventIdNew }) st.jobs with
  | none => Except.error ("Job " ++ jobId ++ " not found")
  | some js =>
    if jobId ∈ st.failWrites then Except.error "external write failure"
    else Except.ok { st with jobs := js }

/-- `updateJobStatus` (googleSheets.js lines 204–263), status column only. -/
def sheetsUpdateJobStatus (st : SheetStore) (jobId statusNew : String) : Except String SheetStore :=
  match updateFirstJob (fun j => j.job_id = jobId) (fun j => { j with status := statusNew }) st.jobs with
  | none => Except.error ("Job " ++ jobId ++ " not found")
  | some js =>
    if jobId ∈ st.failWrites then Except.error "external write failure"
    else Except.ok { st with jobs := js }

/-- Status of a job in the store, by first `job_id` match. -/
def jobStatusIn (st : SheetStore) (jobId : String) : Option String :=
  (st.jobs.find? (fun j => j.job_id = jobId)).map (fun j => j.status)

/-! ## Calendar service state — `googleCalendar.js`. -/

/-- A calendar event resource: `summary` is the title that embeds the job
id, `startV`/`endV` are the `start`/`end` payloads (a bare date for all-day
events, a rendered ISO instant otherwise). -/
structure GEvent where
  id : String := ""
  summary : String := ""
  description : String := ""
  location : String := ""
  allDay : Bool := false
  startV : String := ""
  endV : String := ""
  reminderMinutes : List Nat := []
deriving DecidableEq, Repr, Inhabited

/-- Calendar service state: events per calendar id, plus a counter from
which the service mints fresh event ids on `events.insert`. -/
structure CalState where
  cals : List (String × List GEvent)
  fresh : Nat := 0
deriving DecidableEq, Repr

/-- Events of one calendar. -/
def getEvents (c : CalState) (cid : String) : List GEvent :=
  match c.cals.find? (fun p => p.1 = cid) with
  | some p => p.2
  | none => []

/-- Replace (first occurrence) or add one calendar's event list. -/
def replaceAssoc (l : List (String × List GEvent)) (cid : String) (evs : List GEvent) :
    List (String × List GEvent) :=
  match l with
  | [] => [(cid, evs)]
  | (k, v) :: rest => if k = cid then (k, evs) :: rest else (k, v) :: replaceAssoc rest cid evs

/-- Set one calendar's event list. -/
def setEvents (c : CalState) (cid : String) (evs : List GEvent) : CalState :=
  { c with cals := replaceAssoc c.cals cid evs }

/-- The id `events.insert` mints for the next inserted event. -/
def freshEventId (c : CalState) : String := "evt-" ++ toString c.fresh

/-- `events.insert`: append the event with a fresh id. -/
def insertEvent (c : CalState) (cid : String) (ev : GEvent) : CalState :=
  let c' := setEvents c cid (getEvents c cid ++ [{ ev with id := freshEventId c }])
  { c' with fresh := c.fresh + 1 }

/-- `events.update`: overwrite the event with the given id in place. -/
def updateEvent (c : CalState) (cid eid : String) (ev : GEvent) : CalState :=
  setEvents c cid ((getEvents c cid).map (fun e => if e.id = eid then { ev with id := eid } else e))

/-- The free-text `q` filter of `events.list`: Google matches the query
against the event's text fields (title, description, location). -/
def qMatch (e : GEvent) (q : String) : Bool :=
  jsIncludes e.summary q || jsIncludes e.description q || jsIncludes e.location q

/-- `findExistingEvent` (googleCalendar.js lines 384–400): `events.list`
with `q = jobId` and `maxResults: 10`, then the first listed event whose
title contains the job id.  The stored order stands in for the service's
`orderBy: 'startTime'`. -/
def findExistingEvent (c : CalState) (calendarId jobId : String) : Option GEvent :=
  (((getEvents c calendarId).filter (fun e => qMatch e jobId)).take 10).find?
    (fun e => jsIncludes e.summary jobId)

/-! ## SyncEngine — `syncJobToCalendar` and event creation. -/

/-- Environment configuration: the queue calendar ids
`CALENDAR_ID_TEAM_A` / `CALENDAR_ID_TEAM_B`; `""` models an unset variable
(both are falsy where the source tests them). -/
structure EnvCfg where
  teamA : String := ""
  teamB : String := ""
deriving DecidableEq, Repr

/-- The `calendarIds` table of `GoogleCalendarService` (googleCalendar.js
lines 7–12): old and new team names map to the same two env calendars. -/
def calendarIdsLookup (env : EnvCfg) (team : String) : String :=
  if team = "ทีม A" ∨ team = "นัดคิวใหม่" then env.teamA
  else if team = "ทีม B" ∨ team = "เสนอราคา" then env.teamB
  else ""

/-- Corrupted-team repair (googleCalendar.js lines 60–69): a team containing
`???` becomes `ทีม A`/`ทีม B` by substring match on `A`/`B`. -/
def fixTeamName (team : String) : String :=
  if team ≠ "" ∧ jsIncludes team "???" then
    if jsIncludes team "A" then "ทีม A"
    else if jsIncludes team "B" then "ทีม B"
    else team
  else team

/-- Effective start time string that enters the start date-time (repaired,
normalized, default `09:00` when normalization fails — lines 263–265). -/
def effStart (job : JobRec) : String :=
  (normalizeTime (resolveStartEnd job.start_time job.end_time job.time_window).1).getD "09:00"

/-- Effective end time string (default `17:00` — lines 267–269). -/
def effEnd (job : JobRec) : String :=
  (normalizeTime (resolveStartEnd job.start_time job.end_time job.time_window).2).getD "17:00"

/-- The `isNaN(getTime())` validation of the two composed date-time strings
(lines 287–298): the date part must parse and both time parts be valid. -/
def datesOk (job : JobRec) : Bool :=
  (parseDate job.date).isSome && timeValid (effStart job) && timeValid (effEnd job)

/-- The event payload of `createSingleDateEvent` (lines 300–343): title
`"{job_id}: {customer}"`, structured Thai description, popup reminders at 60
and 15 minutes, and either an all-day date or explicit Bangkok date-times. -/
def buildPayload (job : JobRec) : GEvent :=
  let isAllDay := job.time_window = "All Day"
  let day := (parseDate job.date).getD 0
  { id := ""
    summary := job.job_id ++ ": " ++ strOr job.customer (strOr job.customer_name "ลูกค้า")
    description :=
      "ประเภทงาน: " ++ strOr job.type "ไม่ระบุ" ++ "\n" ++
      "ลูกค้า: " ++ strOr job.customer (strOr job.customer_name "ไม่ระบุ") ++ "\n" ++
      "โทร: " ++ strOr job.phone (strOr job.customer_phone "ไม่ระบุ") ++ "\n" ++
      "ที่อยู่: " ++ strOr job.address (strOr job.customer_address "ไม่ระบุ") ++ "\n" ++
      "สถานะ: " ++ strOr job.status "ไม่ระบุ" ++ "\n" ++
      "ช่วงเวลา: " ++ strOr job.time_window "ไม่ระบุ" ++ "\n" ++
      "รายละเอียด: " ++ strOr job.details (strOr job.job_description "ไม่มี") ++ "\n" ++
      "หมายเหตุ: " ++ strOr job.notes "ไม่มี"
    location := strOr job.address (strOr job.customer_address "")
    allDay := isAllDay
    startV := if isAllDay then job.date else isoOfBangkok day (minutesOfTime (effStart job))
    endV := if isAllDay then job.date else isoOfBangkok day (minutesOfTime (effEnd job))
    reminderMinutes := [60, 15] }

/-- Best-effort `updateJobEventId` call at the end of
`createSingleDateEvent` (lines 366–378): errors are swallowed. -/
def tryWriteBack (st : SheetStore) (jobId eid : String) : SheetStore :=
  match updateJobEventId st jobId eid with
  | Except.ok st' => st'
  | Except.error _ => st

/-- `createSingleDateEvent` (googleCalendar.js lines 153–381): no scheduled
date is a silent `null`; an invalid composed date-time throws; otherwise the
event is upserted (update-in-place when `findExistingEvent` hits, insert
with a fresh id otherwise) and the new event id is written back to the job
store best-effort — a write-back failure is caught and only logged. -/
def createSingleDateEvent (cal : CalState) (st : SheetStore) (job : JobRec) (calendarId : String) :
    Except String (Option GEvent × CalState × SheetStore) :=
  if job.date = "" then Except.ok (none, cal, st)
  else if datesOk job then
    let event := buildPayload job
    match findExistingEvent cal calendarId job.job_id with
    | some existing =>
      Except.ok (some { event with id := existing.id },
        updateEvent cal calendarId existing.id event,
        tryWriteBack st job.job_id existing.id)
    | none =>
      Except.ok (some { event with id := freshEventId cal },
        insertEvent cal calendarId event,
        tryWriteBack st job.job_id (freshEventId cal))
  else Except.error "Invalid date or time format provided"

/-- Day numbers from `a` to `b` inclusive (the `for` loop of
`createDateRangeEvents`, which steps one day at a time while
`currentDate <= endDate`). -/
def dayRange (a b : Int) : List Int :=
  if a ≤ b then (List.range (b - a + 1).toNat).map (fun k : Nat => a + (k : Int)) else []

/-- Loop body of `createDateRangeEvents` (lines 132–146): each day gets a
copy of the job with `date` set and the derived id `"{job_id}-{date}"`, and
its event collected when one is returned. -/
def rangeLoop (job : JobRec) (calendarId : String) :
    List Int → CalState → SheetStore → Except String (List GEvent × CalState × SheetStore)
  | [], cal, st => Except.ok ([], cal, st)
  | d :: ds, cal, st =>
    let dateStr := renderDay d
    let dailyJob := { job with date := dateStr, job_id := job.job_id ++ "-" ++ dateStr }
    match createSingleDateEvent cal st dailyJob calendarId with
    | Except.error e => Except.error e
    | Except.ok (oe, cal', st') =>
      match rangeLoop job calendarId ds cal' st' with
      | Except.error e => Except.error e
      | Except.ok (es, cal'', st'') =>
        Except.ok ((match oe with | some ev => ev :: es | none => es), cal'', st'')

/-- `createDateRangeEvents` (googleCalendar.js lines 106–150). -/
def createDateRangeEvents (cal : CalState) (st : SheetStore) (job : JobRec) (calendarId : String) :
    Except String (List GEvent × CalState × SheetStore) :=
  if job.start_date = "" ∨ job.end_date = "" then
    Except.error "Date range jobs require start_date and end_date"
  else
    match parseDate job.start_date, parseDate job.end_date with
    | some a, some b => rangeLoop job calendarId (dayRange a b) cal st
    | _, _ => Except.error "Invalid date format in start_date or end_date"

/-- Result of `syncJobToCalendar`: JS `null` (a no-op), a single event, or
the array of a date-range sync. -/
inductive SyncOutcome where
  | nullResult
  | singleEvent (e : GEvent)
  | rangeEvents (es : List GEvent)
deriving DecidableEq, Repr

/-- `syncJobToCalendar` (googleCalendar.js lines 45–103): repair the team
name, resolve the queue calendar (none ⇒ `null`, a no-op), then either the
date-range path or the single-date path. -/
def syncJobToCalendar (env : EnvCfg) (cal : CalState) (st : SheetStore) (job : JobRec) :
    Except String (SyncOutcome × CalState × SheetStore) :=
  let teamName := fixTeamName job.team
  let calendarId := calendarIdsLookup env teamName
  if calendarId = "" then Except.ok (SyncOutcome.nullResult, cal, st)
  else if job.date_type = "range" ∧ job.start_date ≠ "" ∧ job.end_date ≠ "" then
    match createDateRangeEvents cal st job calendarId with
    | Except.error e => Except.error e
    | Except.ok (es, cal', st') => Except.ok (SyncOutcome.rangeEvents es, cal', st')
  else
    match createSingleDateEvent cal st job calendarId with
    | Except.error e => Except.error e
    | Except.ok (oe, cal', st') =>
      Except.ok ((match oe with
        | some e => SyncOutcome.singleEvent e
        | none => SyncOutcome.nullResult), cal', st')

/-- Whether a sync result is a successful single-event result. -/
def isSingleEventOk (r : Except String (SyncOutcome × CalState × SheetStore)) : Bool :=
  match r with
  | Except.ok (SyncOutcome.singleEvent _, _, _) => true
  | _ => false

/-- Number of events in a calendar whose title contains the given job id. -/
def countMatching (c : CalState) (cid jobId : String) : Nat :=
  ((getEvents c cid).filter (fun e => jsIncludes e.summary jobId)).length

/-- The event `createSingleDateEvent` inserts on a miss: the payload with
the id the calendar mints. -/
def mintedEvent (cal : CalState) (job : JobRec) : GEvent :=
  { buildPayload job with id := freshEventId cal }

/-! ## DriftDetector — the auto-detection service.

The calendar world for drift detection: the set of calendars reachable by
the service identity (used both for direct `events.get` lookups and for
`calendarList.list` enumeration), each holding a set of event ids.  The
service's own `queueCalendars` table is the same env mapping as the sync
service's `calendarIds`. -/

structure CalInfo where
  id : String := ""
  summary : String := ""
  events : List String := []
deriving DecidableEq, Repr

structure DriftWorld where
  calendars : List CalInfo
deriving DecidableEq, Repr

/-- The `queueCalendars` table of `AutoDetectionService` (same four team
keys over the two env calendar ids). -/
def queueCalLookup (env : EnvCfg) (team : String) : String :=
  if team = "ทีม A" ∨ team = "นัดคิวใหม่" then env.teamA
  else if team = "ทีม B" ∨ team = "เสนอราคา" then env.teamB
  else ""

/-- `Object.values(this.queueCalendars).includes(calendarId)`. -/
def isQueueCalId (env : EnvCfg) (cid : String) : Bool :=
  cid = env.teamA || cid = env.teamB

/-- The `personalCalendarPatterns` list of the auto-detection service. -/
def personalCalendarPatterns : List String :=
  ["งานส่วนตัว", "personal", "ส่วนตัว", "นัดหมายส่วนตัว", "ปฏิทินส่วนตัว", "งานส่วนบุคคล"]

/-- `isPersonalCalendar`: queue calendars are never personal; otherwise a
case-insensitive name-pattern match (informational only). -/
def isPersonalCalendar (env : EnvCfg) (cid summary : String) : Bool :=
  if isQueueCalId env cid then false
  else personalCalendarPatterns.any
    (fun pat => jsIncludes (summary.map Char.toLower) (pat.map Char.toLower))

/-- `events.get(calendarId, eventId)` succeeds exactly when the calendar is
reachable and holds the event (a failed lookup is the 404 path; other
transport errors are not modelled). -/
def eventInCalendar (w : DriftWorld) (cid evId : String) : Bool :=
  match w.calendars.find? (fun c => c.id = cid) with
  | some c => c.events.contains evId
  | none => false

/-- `searchEventInPersonalCalendars`: walk `calendarList.list` in order,
skip queue calendars, and return the first calendar where `events.get`
finds the event (`found: false` is `none`). -/
def searchEventInPersonalCalendars (env : EnvCfg) (w : DriftWorld) (evId : String) :
    Option CalInfo :=
  w.calendars.find? (fun c => !(isQueueCalId env c.id) && c.events.contains evId)

/-- Result object of `checkEventMoved`. -/
structure MoveCheck where
  moved : Bool
  deletedFromQueue : Bool
  newCalendarId : Option String := none
  newCalendarName : Option String := none
deriving DecidableEq, Repr

/-- `checkEventMoved` (auto-detection service lines 242–272): the direct
queue-calendar lookup, then — on 404 — the cross-calendar search. -/
def checkEventMoved (env : EnvCfg) (w : DriftWorld) (queueCalendarId evId : String) : MoveCheck :=
  if eventInCalendar w queueCalendarId evId then
    { moved := false, deletedFromQueue := false }
  else
    match searchEventInPersonalCalendars env w evId with
    | some c =>
      { moved := true, deletedFromQueue := true,
        newCalendarId := some c.id, newCalendarName := some c.summary }
    | none => { moved := false, deletedFromQueue := true }

/-- The completion sentinel status `นัดหมายเรียบร้อยแล้ว`. -/
def completionSentinel : String := "นัดหมายเรียบร้อยแล้ว"

/-- Provenance metadata passed to the auto-detection `updateJobStatus` call
(it is logged there, not persisted to the sheet). -/
structure ProvMeta where
  auto_detection : Bool := false
  moved_from_queue : Bool := false
  disappeared_from_queue : Bool := false
  moved_to_calendar : Option String := none
  detection_time : String := ""
deriving DecidableEq, Repr

/-- A successful auto-detection status-update call: job id, new status, and
the metadata recorded with it. -/
structure StatusWrite where
  jobId : String
  status : String
  meta : ProvMeta
deriving DecidableEq, Repr

/-- Result object of `processJobAutoDetection`. -/
structure PJResult where
  processed : Bool
  action : Option String := none
  newStatus : Option String := none
  reason : Option String := none
  errMsg : Option String := none
deriving DecidableEq, Repr

/-- `AutoDetectionService.updateJobStatus` (lines 377–397): look the job up
in a fresh `getAllJobs` snapshot, throw `not found` when absent, then issue
the sheet status write (which re-checks and may itself fail). -/
def adUpdateJobStatus (st : SheetStore) (jobId statusNew : String) : Except String SheetStore :=
  if (st.jobs.find? (fun j => j.job_id = jobId)).isSome then
    sheetsUpdateJobStatus st jobId statusNew
  else Except.error ("Job " ++ jobId ++ " not found")

/-- JS truthiness of an optional string (`moveResult.newCalendarId`). -/
def optTruthy (o : Option String) : Bool :=
  match o with
  | some s => s ≠ ""
  | none => false

/-- `processJobAutoDetection` (auto-detection service lines 316–375).  The
whole body is wrapped in `try/catch`, so the function always returns a
result object; a failing status write surfaces as `processed: false` with
an error message.  Returns the result, the store after any write, and the
log of successful status-update calls with their metadata. -/
def processJobAutoDetection (env : EnvCfg) (w : DriftWorld) (st : SheetStore) (now : String)
    (job : JobRec) : PJResult × SheetStore × List StatusWrite :=
  let calendarEventId := if job.eventId ≠ "" then job.eventId else job.calendar_event_id
  if calendarEventId = "" ∨ job.team = "" then
    ({ processed := false, reason := some "No calendar event or team specified" }, st, [])
  else
    let queueCalendarId := queueCalLookup env job.team
    if queueCalendarId = "" then
      ({ processed := false,
         reason := some ("No queue calendar configured for team: " ++ job.team) }, st, [])
    else
      let mr := checkEventMoved env w queueCalendarId calendarEventId
      if mr.moved && optTruthy mr.newCalendarId then
        let nm := (mr.newCalendarName).getD "undefined"
        let meta : ProvMeta :=
          { auto_detection := true, moved_from_queue := true,
            moved_to_calendar := mr.newCalendarName, detection_time := now }
        match adUpdateJobStatus st job.job_id completionSentinel with
        | Except.ok st' =>
          ({ processed := true, action := some "status_updated",
             newStatus := some completionSentinel,
             reason := some ("Event moved to calendar: " ++ nm) }, st',
           [{ jobId := job.job_id, status := completionSentinel, meta := meta }])
        | Except.error e => ({ processed := false, errMsg := some e }, st, [])
      else if mr.deletedFromQueue && !mr.moved then
        let meta : ProvMeta :=
          { auto_detection := true, disappeared_from_queue := true, detection_time := now }
        match adUpdateJobStatus st job.job_id completionSentinel with
        | Except.ok st' =>
          ({ processed := true, action := some "status_updated",
             newStatus := some completionSentinel,
             reason := some "Event disappeared from queue calendar - assumed completed by technician" },
           st', [{ jobId := job.job_id, status := completionSentinel, meta := meta }])
        | Except.error e => ({ processed := false, errMsg := some e }, st, [])
      else
        ({ processed := false, reason := some "No changes detected" }, st, [])

/-- Eligibility filter of `runDailyAutoDetection` (lines 413–417). -/
def eligibleJob (job : JobRec) : Bool :=
  (job.eventId ≠ "" || job.calendar_event_id ≠ "") && job.team ≠ "" &&
    !(["Completed", "Cancelled", completionSentinel].contains job.status)

/-- One detail entry of the scan results.  The `catch` arm that would push
an error entry instead is unreachable: `processJobAutoDetection` catches
internally and always resolves (see its model above). -/
structure ScanDetail where
  jobId : String
  result : PJResult
deriving DecidableEq, Repr

/-- The scan summary object (`results` in `runDailyAutoDetection`). -/
structure ScanResults where
  totalChecked : Nat := 0
  statusUpdated : Nat := 0
  moved : Nat := 0
  deleted : Nat := 0
  errors : Nat := 0
  details : List ScanDetail := []
deriving DecidableEq, Repr

/-- The per-job loop of `runDailyAutoDetection` (lines 431–462): strictly
sequential; counters per the source — `moved` is incremented whenever the
new status is the completion sentinel, `deleted` when it is `Cancelled`;
the real-time 100 ms inter-job delay has no observable effect here. -/
def runDetectionLoop (env : EnvCfg) (w : DriftWorld) (now : String) :
    List JobRec → SheetStore → List StatusWrite → ScanResults →
    ScanResults × SheetStore × List StatusWrite
  | [], st, ws, acc => (acc, st, ws)
  | job :: rest, st, ws, acc =>
    let r := processJobAutoDetection env w st now job
    let bump := r.1.processed && r.1.action == some "status_updated"
    let acc' : ScanResults :=
      { acc with
        statusUpdated := acc.statusUpdated + (if bump then 1 else 0)
        moved := acc.moved +
          (if bump && r.1.newStatus == some completionSentinel then 1 else 0)
        deleted := acc.deleted + (if bump && r.1.newStatus == some "Cancelled" then 1 else 0)
        details := acc.details ++ [{ jobId := job.job_id, result := r.1 }] }
    runDetectionLoop env w now rest r.2.1 (ws ++ r.2.2) acc'

/-- `runDailyAutoDetection` (auto-detection service lines 399–471): filter
the `getAllJobs` snapshot to eligible jobs, then run the loop.  `st.jobs`
stands for the snapshot in the order `getAllJobs` returns it. -/
def runDailyAutoDetection (env : EnvCfg) (w : DriftWorld) (st : SheetStore) (now : String) :
    ScanResults × SheetStore × List StatusWrite :=
  let jobsWithCalendar := st.jobs.filter eligibleJob
  runDetectionLoop env w now jobsWithCalendar st []
    { totalChecked := jobsWithCalendar.length }

/-! ## ReconciliationScheduler — `SchedulerService` (scheduler source,
lines 1644–1744 of the bundled index file).

`this.jobs` is a `Map` from task name to the `node-cron` task; `cron.schedule`
creates a task object that, once `task.start()`ed, stays active until its
own `stop()` is called — dropping the Map reference does not stop it.
Tasks are numbered by creation order. -/

structure SchedState where
  registry : List (String × Nat) := []
  active : List Nat := []
  nextTask : Nat := 0
deriving DecidableEq, Repr

/-- `Map.prototype.set`: replace the first entry with the key, else append. -/
def mapSet (m : List (String × Nat)) (k : String) (v : Nat) : List (String × Nat) :=
  match m with
  | [] => [(k, v)]
  | e :: rest => if e.1 = k then (k, v) :: rest else e :: mapSet rest k v

/-- `Map.prototype.get`. -/
def mapGet (m : List (String × Nat)) (k : String) : Option Nat :=
  (m.find? (fun p => p.1 = k)).map (fun p => p.2)

/-- `Map.prototype.delete` (drop the first entry with the key). -/
def mapDelete (m : List (String × Nat)) (k : String) : List (String × Nat) :=
  match m with
  | [] => []
  | e :: rest => if e.1 = k then rest else e :: mapDelete rest k

/-- `startDailyAutoDetection` (lines 1650–1694): create a new cron task,
register it under `dailyAutoDetection` (overwriting any existing entry
without stopping that task), and start it. -/
def startDailyAutoDetection (s : SchedState) : SchedState :=
  { registry := mapSet s.registry "dailyAutoDetection" s.nextTask
    active := s.active ++ [s.nextTask]
    nextTask := s.nextTask + 1 }

/-- `stopDailyAutoDetection` (lines 1696–1705): stop and deregister the
registered task if any; returns whether one was registered. -/
def stopDailyAutoDetection (s : SchedState) : SchedState × Bool :=
  match mapGet s.registry "dailyAutoDetection" with
  | some t =>
    ({ s with registry := mapDelete s.registry "dailyAutoDetection",
              active := s.active.erase t }, true)
  | none => (s, false)

/-- A start/stop call sequence on the scheduler. -/
inductive SchedOp where
  | startOp
  | stopOp
deriving DecidableEq, Repr

def applySchedOp (s : SchedState) : SchedOp → SchedState
  | SchedOp.startOp => startDailyAutoDetection s
  | SchedOp.stopOp => (stopDailyAutoDetection s).1

def applySchedOps (s : SchedState) (ops : List SchedOp) : SchedState :=
  ops.foldl applySchedOp s

/-- Number of registry entries under the daily task name. -/
def registryCount (s : SchedState) : Nat :=
  s.registry.countP (fun p => p.1 = "dailyAutoDetection")

/-! ## Concrete fixtures used to instantiate the theorems. -/

def envFx : EnvCfg := { teamA := "QA", teamB := "QB" }

def jobDriftFx : JobRec :=
  { job_id := "JOB-000009", team := "ทีม A", eventId := "EV9", status := "Scheduled" }

def stDriftFx : SheetStore := { jobs := [jobDriftFx] }

def wLinkedFx : DriftWorld :=
  { calendars := [{ id := "QA", summary := "Queue A", events := ["EV9"] }] }

def wGoneFx : DriftWorld :=
  { calendars := [{ id := "QA", summary := "Queue A", events := [] }] }

def wMovedFx : DriftWorld :=
  { calendars := [{ id := "QA", summary := "Queue A", events := [] },
                  { id := "P1", summary := "งานส่วนตัว ช่าง", events := ["EV9"] }] }

def calFx : CalState := { cals := [("QA", [])], fresh := 0 }

def jobSingleFx : JobRec :=
  { job_id := "JOB-000010", team := "ทีม A", date := "2025-08-01",
    start_time := "9:00", end_time := "12:00", customer := "ACME" }

def stSyncFx : SheetStore := { jobs := [jobSingleFx] }

def jobBadTimesFx : JobRec :=
  { job_id := "JOB-000011", team := "ทีม A", date := "2025-08-01",
    start_time := "abc", end_time := "xyz" }

def jobHour99Fx : JobRec :=
  { job_id := "JOB-000012", team := "ทีม A", date := "2025-08-01",
    start_time := "99", end_time := "10:00" }

def jobRangeFx : JobRec :=
  { job_id := "JOB-000013", team := "ทีม A", date_type := "range",
    start_date := "2025-08-01", end_date := "2025-08-03",
    time_window := "All Day", customer := "RangeCo" }

/-! ## Claims -/

/-- C4: the time normalizer maps `"9:0"` to `"09:00"`, `"900"` to `"09:00"`,
`"1700"` to `"17:00"`, `"7"` to `"07:00"`, and every input that matches none
of the accepted shapes (`H:MM`/`HH:MM`, `H:M`, bare hour digits, 3–4 digit
compact form) yields `none`, never a guessed time. -/
theorem claim4_time_normalization :
    normalizeTime "9:0" = some "09:00" ∧
    normalizeTime "900" = some "09:00" ∧
    normalizeTime "1700" = some "17:00" ∧
    normalizeTime "7" = some "07:00" ∧
    ∀ s : String, acceptedTimeShape (jsTrim s).data = false → normalizeTime s = none := by
  refine ⟨by decide, by decide, by decide, by decide, ?_⟩
  intro s h
  unfold normalizeTime
  by_cases hs : s = ""
  · simp [hs]
  · simp only [acceptedTimeShape, Bool.or_eq_false_iff] at h
    obtain ⟨⟨⟨h1, h2⟩, h3⟩, h4⟩ := h
    simp [hs, h1, h2, h3, h4]

/-- Witness for C4 at the concrete unparseable input `"25/12"`. -/
theorem claim4_witness : normalizeTime "25/12" = none :=
  claim4_time_normalization.2.2.2.2 "25/12" (by decide)

/-- C5 counterexample: with no recognized `time_window`, start `"10:00"` and
midnight end, the source repairs the end to `"17:00"`, not to the `"12:00"`
the claim's heuristic (`start ≥ 13:00 ⇒ 17:00, else 12:00`) prescribes. -/
theorem claim5_counterexample :
    resolveStartEnd "10:00" "0:00" "" = ("10:00", "17:00") ∧
    specFallbackEnd "10:00" = "12:00" ∧
    ("17:00" : String) ≠ "12:00" := by
  refine ⟨by decide, by decide, by decide⟩

/-- C5 (amended): a midnight end time is repaired to the fixed window for a
recognized `time_window` (AM 09:00–12:00, PM 13:00–17:00, All Day
08:00–18:00); otherwise the (defaulted) start is kept and the end becomes
12:00 exactly when that start is `09:00`/`9:00`, and 17:00 for every other
start — both when start ≥ 13:00 and in the general default case. -/
theorem claim5_end_time_repair_amended (s tw et : String)
    (h : et = "0:00" ∨ et = "00:00") :
    resolveStartEnd s et tw =
      if tw = "AM" then ("09:00", "12:00")
      else if tw = "PM" then ("13:00", "17:00")
      else if tw = "All Day" then ("08:00", "18:00")
      else if strOr s "09:00" = "09:00" ∨ strOr s "09:00" = "9:00" then
        (strOr s "09:00", "12:00")
      else (strOr s "09:00", "17:00") := by
  have h0 : strOr et "17:00" = "0:00" ∨ strOr et "17:00" = "00:00" := by
    rcases h with h | h <;> subst h
    · exact Or.inl rfl
    · exact Or.inr rfl
  unfold resolveStartEnd
  rw [if_pos h0]
  split_ifs <;> rfl

/-- Witness for C5 (amended) at start `"13:30"`, window absent. -/
theorem claim5_witness : resolveStartEnd "13:30" "0:00" "" = ("13:30", "17:00") := by
  rw [claim5_end_time_repair_amended "13:30" "" "0:00" (Or.inl rfl)]
  decide

/-- `mapSet` leaves exactly one entry for the key when at most one existed:
the count becomes `max old 1`. -/
theorem countP_mapSet (k : String) (v : Nat) :
    ∀ m : List (String × Nat),
      (mapSet m k v).countP (fun p => p.1 = k) = max (m.countP (fun p => p.1 = k)) 1 := by
  intro m
  induction m with
  | nil => simp [mapSet]
  | cons e rest ih =>
    by_cases hk : e.1 = k
    · simp [mapSet, hk, List.countP_cons]
    · simp [mapSet, hk, List.countP_cons, ih]

/-- `mapDelete` never increases the key count. -/
theorem countP_mapDelete (k : String) :
    ∀ m : List (String × Nat),
      (mapDelete m k).countP (fun p => p.1 = k) ≤ m.countP (fun p => p.1 = k) := by
  intro m
  induction m with
  | nil => simp [mapDelete]
  | cons e rest ih =>
    by_cases hk : e.1 = k
    · simp [mapDelete, hk, List.countP_cons]
    · simp [mapDelete, hk, List.countP_cons, ih]

/-- C9 counterexample: from the fresh scheduler state, calling
`startDailyAutoDetection` twice leaves two started-and-unstopped cron tasks
(`active = [0, 1]`) — the second start overwrote the registry entry without
stopping task 0 — refuting "at most one recurring registration is ever
active"; the subsequent stop removes only task 1. -/
theorem claim9_counterexample :
    (startDailyAutoDetection (startDailyAutoDetection {})).active = [0, 1] ∧
    (startDailyAutoDetection (startDailyAutoDetection {})).active.length = 2 ∧
    stopDailyAutoDetection (startDailyAutoDetection (startDailyAutoDetection {})) =
      ({ registry := [], active := [0], nextTask := 2 }, true) := by
  refine ⟨by decide, by decide, by decide⟩

/-- C9 (amended): the named-task registry itself holds at most one
`dailyAutoDetection` entry across any start/stop sequence, and stop removes
the registered task; but starting when already started replaces the registry
entry without stopping the previous task, which stays active — after two
starts two tasks are concurrently active and stop removes only the latest. -/
theorem claim9_scheduler_amended :
    (∀ (s : SchedState) (ops : List SchedOp), registryCount s ≤ 1 →
      registryCount (applySchedOps s ops) ≤ 1) ∧
    (startDailyAutoDetection (startDailyAutoDetection {})).active.length = 2 ∧
    (stopDailyAutoDetection (startDailyAutoDetection (startDailyAutoDetection {}))).1.active
      = [0] := by
  refine ⟨?_, by decide, by decide⟩
  intro s ops
  induction ops generalizing s with
  | nil => intro h; simpa [applySchedOps] using h
  | cons op rest ih =>
    intro h
    have hstep : registryCount (applySchedOp s op) ≤ 1 := by
      cases op with
      | startOp =>
        simp only [applySchedOp, startDailyAutoDetection, registryCount]
        rw [countP_mapSet]
        unfold registryCount at h
        omega
      | stopOp =>
        simp only [applySchedOp, stopDailyAutoDetection]
        cases hg : mapGet s.registry "dailyAutoDetection" with
        | none => simpa using h
        | some t =>
          simp only []
          unfold registryCount at h ⊢
          calc (mapDelete s.registry "dailyAutoDetection").countP _
              ≤ s.registry.countP (fun p => p.1 = "dailyAutoDetection") :=
                countP_mapDelete _ _
            _ ≤ 1 := h
    have : applySchedOps s (op :: rest) = applySchedOps (applySchedOp s op) rest := by
      simp [applySchedOps, List.foldl_cons]
    rw [this]
    exact ih _ hstep

/-- Witness for C9 (amended) at a concrete call sequence. -/
theorem claim9_witness :
    registryCount (applySchedOps {}
      [SchedOp.startOp, SchedOp.startOp, SchedOp.stopOp, SchedOp.startOp]) ≤ 1 :=
  claim9_scheduler_amended.1 {}
    [SchedOp.startOp, SchedOp.startOp, SchedOp.stopOp, SchedOp.startOp] (by decide)

/-- A decimal digit is not whitespace and is neither sign character. -/
theorem digit_char_facts {c : Char} (h : c.isDigit = true) :
    c.isWhitespace = false ∧ c ≠ '-' ∧ c ≠ '+' := by
  refine ⟨?_, ?_, ?_⟩
  · cases hw : c.isWhitespace with
    | false => rfl
    | true =>
      exfalso
      have h4 : c = ' ' ∨ c = '\t' ∨ c = '\r' ∨ c = '\n' := by
        simpa [Char.isWhitespace, or_assoc] using hw
      rcases h4 with rfl | rfl | rfl | rfl <;> exact absurd h (by decide)
  · intro hc; subst hc; exact absurd h (by decide)
  · intro hc; subst hc; exact absurd h (by decide)

/-- `takeWhile` keeps a list all of whose elements satisfy the predicate. -/
theorem takeWhile_of_all {p : Char → Bool} :
    ∀ l : List Char, l.all p = true → l.takeWhile p = l := by
  intro l
  induction l with
  | nil => intro _; rfl
  | cons a t ih =>
    intro h
    simp only [List.all_cons, Bool.and_eq_true] at h
    simp [List.takeWhile_cons, h.1, ih h.2]

/-- Structure of a well-formed `JOB-######` id. -/
theorem wellFormed_shape {s : String} (h : (wellFormedJobIdNum s).isSome = true) :
    ∃ ds : List Char, s.data = ['J', 'O', 'B', '-'] ++ ds ∧ ds.length = 6 ∧
      ds.all Char.isDigit = true ∧ wellFormedJobIdNum s = some (digitsToNat ds) := by
  unfold wellFormedJobIdNum at h ⊢
  split_ifs at h ⊢ with hc
  · exact ⟨s.data.drop 4, by rw [← hc.1]; exact (List.take_append_drop 4 s.data).symm,
      hc.2.1, hc.2.2, rfl⟩
  · simp at h

/-- A well-formed id starts with `JOB-`. -/
theorem wellFormed_startsWith {s : String} {ds : List Char}
    (hd : s.data = ['J', 'O', 'B', '-'] ++ ds) : jsStartsWith s "JOB-" = true := by
  unfold jsStartsWith
  have hp : ("JOB-" : String).data = ['J', 'O', 'B', '-'] := rfl
  rw [hp, hd]
  simp [listBeginsWith]

/-- A well-formed id passes the `getNextJobId` filter. -/
theorem wellFormed_valid {s : String} {ds : List Char}
    (hd : s.data = ['J', 'O', 'B', '-'] ++ ds) : validJobIdForMax s = true := by
  have hne : s ≠ "" := by
    intro h; subst h; simp at hd
  have hslash : s ≠ "/" := by
    intro h; subst h
    have := congrArg List.length hd
    simp at this
  have htrim : jsTrim s ≠ "" := by
    unfold jsTrim
    rw [hd]
    intro h
    have h2 : ((((['J', 'O', 'B', '-'] ++ ds).dropWhile Char.isWhitespace).reverse.dropWhile
        Char.isWhitespace).reverse) = ([] : List Char) := by
      simpa using congrArg String.data h
    have hdw : (['J', 'O', 'B', '-'] ++ ds).dropWhile Char.isWhitespace
        = ['J', 'O', 'B', '-'] ++ ds := by
      simp [List.dropWhile_cons]
    rw [hdw, List.reverse_eq_nil_iff, List.dropWhile_eq_nil_iff] at h2
    have hJ : ('J' : Char) ∈ (['J', 'O', 'B', '-'] ++ ds).reverse := by simp
    exact absurd (h2 _ hJ) (by decide)
  simp [validJobIdForMax, hne, hslash, htrim, wellFormed_startsWith hd]

/-- `parseInt` on a non-empty all-digit string returns its decimal value. -/
theorem parseInt_digits {ds : List Char} (hne : ds ≠ [])
    (hdig : ds.all Char.isDigit = true) :
    parseIntStr (String.mk ds) = some ((digitsToNat ds : Nat) : Int) := by
  obtain ⟨d0, ds', rfl⟩ := List.exists_cons_of_ne_nil hne
  have hd0 : d0.isDigit = true := by
    simp only [List.all_cons, Bool.and_eq_true] at hdig
    exact hdig.1
  obtain ⟨hws, hneg, hpos⟩ := digit_char_facts hd0
  unfold parseIntStr
  have hdrop : (String.mk (d0 :: ds')).data.dropWhile Char.isWhitespace = d0 :: ds' := by
    simp [List.dropWhile_cons, hws]
  rw [hdrop]
  simp only [if_neg hneg, if_neg hpos]
  unfold parseNatChars
  rw [takeWhile_of_all _ hdig]
  simp

/-- One fold step of `getNextJobId` on a well-formed id computes a max. -/
theorem nextJobIdStep_wf (acc : Nat) (j : JobRec)
    (hwf : (wellFormedJobIdNum j.job_id).isSome = true) :
    ∃ v : Nat, wellFormedJobIdNum j.job_id = some v ∧
      nextJobIdStep ((acc : Nat) : Int) j = ((max acc v : Nat) : Int) := by
  obtain ⟨ds, hd, hlen, hdig, hval⟩ := wellFormed_shape hwf
  refine ⟨digitsToNat ds, hval, ?_⟩
  unfold nextJobIdStep
  rw [if_pos (by rw [wellFormed_valid hd])]
  have hds : j.job_id.data.drop 4 = ds := by
    rw [hd]
    have h4 := List.drop_left ['J', 'O', 'B', '-'] ds
    simp only [List.length_cons, List.length_nil] at h4
    exact h4
  rw [hds, parseInt_digits (by intro h; rw [h] at hlen; simp at hlen) hdig]
  show (if ((acc : Nat) : Int) < ((digitsToNat ds : Nat) : Int) then
      ((digitsToNat ds : Nat) : Int) else ((acc : Nat) : Int)) =
    ((max acc (digitsToNat ds) : Nat) : Int)
  split_ifs with hlt
  · have : acc < digitsToNat ds := by exact_mod_cast hlt
    congr 1
    omega
  · have : ¬ acc < digitsToNat ds := by
      intro hcon
      exact hlt (by exact_mod_cast hcon)
    congr 1
    omega

/-- A fold step on an id that does not start with `JOB-` is the identity,
and such an id is not well-formed. -/
theorem nextJobIdStep_skip (acc : Int) (j : JobRec)
    (hsw : jsStartsWith j.job_id "JOB-" = false) :
    nextJobIdStep acc j = acc ∧ wellFormedJobIdNum j.job_id = none := by
  constructor
  · unfold nextJobIdStep validJobIdForMax
    simp [hsw]
  · cases hw : wellFormedJobIdNum j.job_id with
    | none => rfl
    | some v =>
      exfalso
      obtain ⟨ds, hd, _, _, _⟩ :=
        wellFormed_shape (show (wellFormedJobIdNum j.job_id).isSome = true by simp [hw])
      rw [wellFormed_startsWith hd] at hsw
      exact Bool.noConfusion hsw

/-- The max fold of `getNextJobId` agrees with the spec's max over
well-formed ids whenever every `JOB-`-prefixed id in the store is
well-formed. -/
theorem foldl_nextJobId_eq : ∀ (jobs : List JobRec),
    (∀ j ∈ jobs, jsStartsWith j.job_id "JOB-" = true →
      (wellFormedJobIdNum j.job_id).isSome = true) →
    ∀ acc : Nat,
      jobs.foldl nextJobIdStep ((acc : Nat) : Int) =
        (((jobs.filterMap (fun j => wellFormedJobIdNum j.job_id)).foldl max acc : Nat) : Int) := by
  intro jobs
  induction jobs with
  | nil => intro _ acc; simp
  | cons j rest ih =>
    intro h acc
    have hrest : ∀ x ∈ rest, jsStartsWith x.job_id "JOB-" = true →
        (wellFormedJobIdNum x.job_id).isSome = true :=
      fun x hx => h x (List.mem_cons_of_mem _ hx)
    by_cases hsw : jsStartsWith j.job_id "JOB-" = true
    · obtain ⟨v, hv, hstep⟩ := nextJobIdStep_wf acc j (h j (List.mem_cons_self _ _) hsw)
      simp only [List.foldl_cons, List.filterMap_cons, hv, hstep]
      exact ih hrest (max acc v)
    · have hb := nextJobIdStep_skip ((acc : Nat) : Int) j (by
        cases hx : jsStartsWith j.job_id "JOB-" with
        | false => rfl
        | true => exact absurd hx hsw)
      simp only [List.foldl_cons, List.filterMap_cons, hb.1, hb.2]
      exact ih hrest acc

/-- C8 counterexample: the malformed id `JOB-000042xyz` is not ignored —
`parseInt` reads its leading digits, so the source returns `JOB-000043`
where the claim's rule (max over well-formed `JOB-######` ids only) gives
`JOB-000001`. -/
theorem claim8_counterexample :
    getNextJobId [{ job_id := "JOB-000042xyz" }] = "JOB-000043" ∧
    getNextJobIdSpec [{ job_id := "JOB-000042xyz" }] = "JOB-000001" ∧
    ("JOB-000043" : String) ≠ "JOB-000001" := by
  refine ⟨by decide, by decide, by decide⟩

/-- C8 (amended): `getNextJobId` returns `JOB-` plus the 6-digit-padded
successor of the maximum leading-integer value among ids passing its filter;
this agrees with the claimed rule (max over well-formed `JOB-######` ids,
malformed ignored) on every store whose `JOB-`-prefixed ids are all
well-formed — in particular `{JOB-000001, JOB-000002, "/", ""}` yields
`JOB-000003` — but not on stores with ids like `JOB-000042xyz`. -/
theorem claim8_next_job_id_amended :
    (∀ jobs : List JobRec,
      (∀ j ∈ jobs, jsStartsWith j.job_id "JOB-" = true →
        (wellFormedJobIdNum j.job_id).isSome = true) →
      getNextJobId jobs = getNextJobIdSpec jobs) ∧
    getNextJobId [{ job_id := "JOB-000001" }, { job_id := "JOB-000002" },
      { job_id := "/" }, { job_id := "" }] = "JOB-000003" := by
  constructor
  · intro jobs h
    simp only [getNextJobId, getNextJobIdSpec]
    have h0 : (0 : Int) = ((0 : Nat) : Int) := rfl
    rw [h0, foldl_nextJobId_eq jobs h 0]
    have hcast : (((jobs.filterMap (fun j => wellFormedJobIdNum j.job_id)).foldl max 0 : Nat) : Int)
        + 1 = ((((jobs.filterMap (fun j => wellFormedJobIdNum j.job_id)).foldl max 0 + 1 : Nat)) : Int) := by
      push_cast
      ring
    rw [hcast]
    rfl
  · decide

/-- Witness for C8 (amended) at a concrete store of well-formed and
non-`JOB-` ids. -/
theorem claim8_witness :
    getNextJobId [{ job_id := "JOB-000007" }, { job_id := "x" }] =
      getNextJobIdSpec [{ job_id := "JOB-000007" }, { job_id := "x" }] :=
  claim8_next_job_id_amended.1 _ (by decide)

/-- A successful first-match patch: the patched row is found afterwards. -/
theorem updateFirstJob_found (jobId : String) (f : JobRec → JobRec)
    (hf : ∀ j, (f j).job_id = j.job_id) :
    ∀ jobs : List JobRec, (jobs.find? (fun j => j.job_id = jobId)).isSome = true →
      ∃ js j0, jobs.find? (fun j => j.job_id = jobId) = some j0 ∧
        updateFirstJob (fun j => j.job_id = jobId) f jobs = some js ∧
        js.find? (fun j => j.job_id = jobId) = some (f j0) := by
  intro jobs
  induction jobs with
  | nil => intro h; simp [List.find?] at h
  | cons j rest ih =>
    intro h
    by_cases hp : j.job_id = jobId
    · refine ⟨f j :: rest, j, ?_, ?_, ?_⟩
      · simp [List.find?_cons, hp]
      · simp [updateFirstJob, hp]
      · simp [List.find?_cons, hf j, hp]
    · have h' : (rest.find? (fun j => j.job_id = jobId)).isSome = true := by
        simpa [List.find?_cons, hp] using h
      obtain ⟨js, j0, h1, h2, h3⟩ := ih h'
      refine ⟨j :: js, j0, ?_, ?_, ?_⟩
      · simpa [List.find?_cons, hp] using h1
      · simp [updateFirstJob, hp, h2]
      · simpa [List.find?_cons, hp] using h3

/-- A status write for a present job with no injected failure succeeds and
leaves the job's stored status at the new value. -/
theorem sheetsUpdateStatus_ok (st : SheetStore) (jobId statusNew : String)
    (hin : (st.jobs.find? (fun j => j.job_id = jobId)).isSome = true)
    (hfail : jobId ∉ st.failWrites) :
    ∃ st', sheetsUpdateJobStatus st jobId statusNew = Except.ok st' ∧
      jobStatusIn st' jobId = some statusNew := by
  obtain ⟨js, j0, _, h2, h3⟩ :=
    updateFirstJob_found jobId (fun j => { j with status := statusNew }) (fun _ => rfl)
      st.jobs hin
  refine ⟨{ st with jobs := js }, ?_, ?_⟩
  · unfold sheetsUpdateJobStatus
    rw [h2]
    simp [hfail]
  · unfold jobStatusIn
    simp [h3]

/-- Same, through the auto-detection service wrapper. -/
theorem adUpdateJobStatus_ok (st : SheetStore) (jobId statusNew : String)
    (hin : (st.jobs.find? (fun j => j.job_id = jobId)).isSome = true)
    (hfail : jobId ∉ st.failWrites) :
    ∃ st', adUpdateJobStatus st jobId statusNew = Except.ok st' ∧
      jobStatusIn st' jobId = some statusNew := by
  obtain ⟨st', h1, h2⟩ := sheetsUpdateStatus_ok st jobId statusNew hin hfail
  refine ⟨st', ?_, h2⟩
  unfold adUpdateJobStatus
  simp [hin, h1]

/-- C2: for an eligible job (non-empty event id, non-empty team, queue
calendar configured, job present in the store, write not failing): if the
direct lookup of the event in the queue calendar succeeds, the result is "No
changes detected" with no store write; if it fails, then whether the event is
found in some other reachable calendar or in none, the status is rewritten to
the completion sentinel via the status-update call, whose metadata records
the detection time, the source (queue) flag, and the destination calendar
name when one was found. -/
theorem claim2_drift_transition (env : EnvCfg) (w : DriftWorld) (st : SheetStore)
    (now : String) (job : JobRec) (qid evId : String)
    (hevEq : (if job.eventId ≠ "" then job.eventId else job.calendar_event_id) = evId)
    (hev : evId ≠ "") (hteam : job.team ≠ "")
    (hq : queueCalLookup env job.team = qid) (hqne : qid ≠ "")
    (hwids : ∀ c ∈ w.calendars, c.id ≠ "")
    (hin : (st.jobs.find? (fun j => j.job_id = job.job_id)).isSome = true)
    (hfail : job.job_id ∉ st.failWrites) :
    (eventInCalendar w qid evId = true →
      processJobAutoDetection env w st now job =
        ({ processed := false, reason := some "No changes detected" }, st, [])) ∧
    (eventInCalendar w qid evId = false →
      ∃ st', jobStatusIn st' job.job_id = some completionSentinel ∧
        (∀ c : CalInfo, searchEventInPersonalCalendars env w evId = some c →
          processJobAutoDetection env w st now job =
            ({ processed := true, action := some "status_updated",
               newStatus := some completionSentinel,
               reason := some ("Event moved to calendar: " ++ c.summary) }, st',
             [{ jobId := job.job_id, status := completionSentinel,
                meta := { auto_detection := true, moved_from_queue := true,
                          moved_to_calendar := some c.summary,
                          detection_time := now } }])) ∧
        (searchEventInPersonalCalendars env w evId = none →
          processJobAutoDetection env w st now job =
            ({ processed := true, action := some "status_updated",
               newStatus := some completionSentinel,
               reason := some
                 "Event disappeared from queue calendar - assumed completed by technician" },
             st',
             [{ jobId := job.job_id, status := completionSentinel,
                meta := { auto_detection := true, disappeared_from_queue := true,
                          detection_time := now } }]))) := by
  have hguard : ¬(evId = "" ∨ job.team = "") := not_or.mpr ⟨hev, hteam⟩
  constructor
  · intro hlink
    simp only [processJobAutoDetection, hevEq, hq, checkEventMoved, hlink]
    rw [if_neg hguard, if_neg hqne]
    simp
  · intro hmiss
    obtain ⟨st', hok, hstat⟩ := adUpdateJobStatus_ok st job.job_id completionSentinel hin hfail
    refine ⟨st', hstat, ?_, ?_⟩
    · intro c hc
      have hcmem : c ∈ w.calendars := by
        have h5 := hc
        unfold searchEventInPersonalCalendars at h5
        exact List.mem_of_find?_eq_some h5
      have hcne : c.id ≠ "" := hwids c hcmem
      simp only [processJobAutoDetection, hevEq, hq, checkEventMoved, hmiss, hc]
      rw [if_neg hguard, if_neg hqne]
      simp [optTruthy, hcne, hok]
    · intro hnone
      simp only [processJobAutoDetection, hevEq, hq, checkEventMoved, hmiss, hnone]
      rw [if_neg hguard, if_neg hqne]
      simp [optTruthy, hok]

/-- Witness for C2 at a linked job: event present in the queue calendar,
result "No changes detected", store untouched, no write issued. -/
theorem claim2_witness :
    processJobAutoDetection envFx wLinkedFx stDriftFx "2026-01-01T00:00:00.000Z" jobDriftFx =
      ({ processed := false, reason := some "No changes detected" }, stDriftFx, []) :=
  (claim2_drift_transition envFx wLinkedFx stDriftFx "2026-01-01T00:00:00.000Z" jobDriftFx
    "QA" "EV9" (by decide) (by decide) (by decide) (by decide) (by decide) (by decide)
    (by decide) (by decide)).1 (by decide)

/-- A processed job always carries the `status_updated` action with the
completion sentinel as its new status (the only transition the service
performs). -/
theorem processJob_shape (env : EnvCfg) (w : DriftWorld) (st : SheetStore) (now : String)
    (job : JobRec) :
    (processJobAutoDetection env w st now job).1.processed = true →
      (processJobAutoDetection env w st now job).1.action = some "status_updated" ∧
      (processJobAutoDetection env w st now job).1.newStatus = some completionSentinel := by
  unfold processJobAutoDetection
  cases hupd : adUpdateJobStatus st job.job_id completionSentinel <;>
    simp only [hupd] <;> split_ifs <;> simp

/-- Loop invariant of the drift-scan: `totalChecked` and `errors` are never
touched, `deleted` is never incremented, `moved` moves in lockstep with
`statusUpdated`, and one detail entry is appended per job in order. -/
theorem runDetectionLoop_spec (env : EnvCfg) (w : DriftWorld) (now : String) :
    ∀ (jobs : List JobRec) (st : SheetStore) (ws : List StatusWrite) (acc : ScanResults),
      (runDetectionLoop env w now jobs st ws acc).1.totalChecked = acc.totalChecked ∧
      (runDetectionLoop env w now jobs st ws acc).1.errors = acc.errors ∧
      (runDetectionLoop env w now jobs st ws acc).1.deleted = acc.deleted ∧
      (runDetectionLoop env w now jobs st ws acc).1.moved + acc.statusUpdated
        = (runDetectionLoop env w now jobs st ws acc).1.statusUpdated + acc.moved ∧
      (runDetectionLoop env w now jobs st ws acc).1.details.map (fun d => d.jobId)
        = acc.details.map (fun d => d.jobId) ++ jobs.map (fun j => j.job_id) := by
  intro jobs
  induction jobs with
  | nil =>
    intro st ws acc
    unfold runDetectionLoop
    exact ⟨rfl, rfl, rfl, Nat.add_comm _ _, by simp⟩
  | cons job rest ih =>
    intro st ws acc
    have hshape := processJob_shape env w st now job
    have hdel : (if ((processJobAutoDetection env w st now job).1.processed &&
        (processJobAutoDetection env w st now job).1.action == some "status_updated") &&
        (processJobAutoDetection env w st now job).1.newStatus == some "Cancelled"
        then (1 : Nat) else 0) = 0 := by
      cases hb : (processJobAutoDetection env w st now job).1.processed with
      | false => simp [hb]
      | true =>
        obtain ⟨ha, hns⟩ := hshape hb
        rw [ha, hns]
        decide
    have hmv : (if ((processJobAutoDetection env w st now job).1.processed &&
        (processJobAutoDetection env w st now job).1.action == some "status_updated") &&
        (processJobAutoDetection env w st now job).1.newStatus == some completionSentinel
        then (1 : Nat) else 0)
        = (if (processJobAutoDetection env w st now job).1.processed &&
            (processJobAutoDetection env w st now job).1.action == some "status_updated"
          then (1 : Nat) else 0) := by
      cases hb : (processJobAutoDetection env w st now job).1.processed with
      | false => simp [hb]
      | true =>
        obtain ⟨ha, hns⟩ := hshape hb
        rw [ha, hns]
        decide
    simp only [runDetectionLoop]
    obtain ⟨i1, i2, i3, i4, i5⟩ := ih (processJobAutoDetection env w st now job).2.1
      (ws ++ (processJobAutoDetection env w st now job).2.2)
      { acc with
        statusUpdated := acc.statusUpdated +
          (if (processJobAutoDetection env w st now job).1.processed &&
              (processJobAutoDetection env w st now job).1.action == some "status_updated"
            then 1 else 0)
        moved := acc.moved +
          (if ((processJobAutoDetection env w st now job).1.processed &&
              (processJobAutoDetection env w st now job).1.action == some "status_updated") &&
              (processJobAutoDetection env w st now job).1.newStatus == some completionSentinel
            then 1 else 0)
        deleted := acc.deleted +
          (if ((processJobAutoDetection env w st now job).1.processed &&
              (processJobAutoDetection env w st now job).1.action == some "status_updated") &&
              (processJobAutoDetection env w st now job).1.newStatus == some "Cancelled"
            then 1 else 0)
        details := acc.details ++
          [{ jobId := job.job_id, result := (processJobAutoDetection env w st now job).1 }] }
    refine ⟨?_, ?_, ?_, ?_, ?_⟩
    · rw [i1]
    · rw [i2]
    · rw [i3]
      dsimp only
      rw [hdel]
      omega
    · rw [hmv] at i4 ⊢
      simp only [] at i4 ⊢
      simp at i4 ⊢
      omega
    · rw [i5]
      simp

/-- C3 counterexample: with one eligible job whose event is found in no
reachable calendar (the cross-calendar search returns nothing), the summary
counts the job in `moved` — which the claim reserves for jobs found in
another calendar — and the deleted/disappeared counter stays 0 instead of
counting it. -/
theorem claim3_counterexample :
    searchEventInPersonalCalendars envFx wGoneFx "EV9" = none ∧
    (runDailyAutoDetection envFx wGoneFx stDriftFx "T0").1.moved = 1 ∧
    (runDailyAutoDetection envFx wGoneFx stDriftFx "T0").1.deleted = 0 ∧
    (runDailyAutoDetection envFx wGoneFx stDriftFx "T0").1.statusUpdated = 1 := by
  refine ⟨by decide, by decide, by decide, by decide⟩

/-- C3 (amended): the scan processes exactly the snapshot's eligible jobs
(non-empty event id, non-empty team, non-terminal status), sequentially and
regardless of injected per-job write failures — every eligible job gets its
detail entry, in order; `errors` stays 0 because `processJobAutoDetection`
catches internally and a failing job surfaces as a `processed: false` detail;
the `deleted` (disappeared) counter stays 0; and `moved` equals
`statusUpdated`, counting every sentinel transition whether the event was
found in another calendar or nowhere. -/
theorem claim3_drift_scan_amended (env : EnvCfg) (w : DriftWorld) (st : SheetStore)
    (now : String) :
    (runDailyAutoDetection env w st now).1.totalChecked
      = (st.jobs.filter eligibleJob).length ∧
    (runDailyAutoDetection env w st now).1.details.map (fun d => d.jobId)
      = (st.jobs.filter eligibleJob).map (fun j => j.job_id) ∧
    (runDailyAutoDetection env w st now).1.errors = 0 ∧
    (runDailyAutoDetection env w st now).1.deleted = 0 ∧
    (runDailyAutoDetection env w st now).1.moved
      = (runDailyAutoDetection env w st now).1.statusUpdated := by
  obtain ⟨h1, h2, h3, h4, h5⟩ := runDetectionLoop_spec env w now (st.jobs.filter eligibleJob)
    st [] { totalChecked := (st.jobs.filter eligibleJob).length }
  unfold runDailyAutoDetection
  refine ⟨by simpa using h1, by simpa using h5, by simpa using h2, by simpa using h3, ?_⟩
  simpa using h4

/-- C7 counterexample: a job with mapped team, valid date, and unparseable
times (`"abc"`/`"xyz"` survive neither normalization nor repair) does not
raise a failure — the sync succeeds with a single event, because the source
silently substitutes the 09:00/17:00 default date-times when normalization
returns null.  This refutes "times that remain unparseable/invalid after
normalization and repair raise a ValidationFailure". -/
theorem claim7_counterexample :
    normalizeTime jobBadTimesFx.start_time = none ∧
    normalizeTime jobBadTimesFx.end_time = none ∧
    isSingleEventOk (syncJobToCalendar envFx calFx { jobs := [] } jobBadTimesFx) = true := by
  refine ⟨by decide, by decide, by decide⟩

/-- C7 (amended): a job whose (repaired) team has no calendar mapping, and a
non-range job with no date, are silent no-ops (`Except.ok` with the null
outcome and unchanged state), distinguishable by the caller from failures
(`Except.error`); times that fail normalization fall back to the default
09:00/17:00 date-times and the sync succeeds; the `Invalid date or time
format provided` failure is raised when a normalized time composes an
invalid date-time (e.g. hour 99). -/
theorem claim7_noop_vs_failure_amended :
    (∀ (env : EnvCfg) (cal : CalState) (st : SheetStore) (job : JobRec),
      calendarIdsLookup env (fixTeamName job.team) = "" →
      syncJobToCalendar env cal st job = Except.ok (SyncOutcome.nullResult, cal, st)) ∧
    (∀ (env : EnvCfg) (cal : CalState) (st : SheetStore) (job : JobRec),
      job.date_type ≠ "range" → job.date = "" →
      syncJobToCalendar env cal st job = Except.ok (SyncOutcome.nullResult, cal, st)) ∧
    (normalizeTime "zz" = none ∧
      isSingleEventOk (syncJobToCalendar envFx calFx { jobs := [] }
        { job_id := "JOB-000020", team := "ทีม A", date := "2025-08-01",
          start_time := "zz", end_time := "qq" }) = true) ∧
    syncJobToCalendar envFx calFx { jobs := [] } jobHour99Fx =
      Except.error "Invalid date or time format provided" := by
  refine ⟨?_, ?_, ⟨by decide, by decide⟩, by rfl⟩
  · intro env cal st job h
    unfold syncJobToCalendar
    simp [h]
  · intro env cal st job h1 h2
    unfold syncJobToCalendar
    by_cases hm : calendarIdsLookup env (fixTeamName job.team) = ""
    · simp [hm]
    · rw [if_neg hm, if_neg (by simp [h1])]
      unfold createSingleDateEvent
      simp [h2]

/-- Witness for C7 (amended): an unmapped team is a silent no-op. -/
theorem claim7_witness :
    syncJobToCalendar envFx calFx { jobs := [] } { team := "ไม่มีทีม" } =
      Except.ok (SyncOutcome.nullResult, calFx, { jobs := [] }) :=
  claim7_noop_vs_failure_amended.1 envFx calFx { jobs := [] } { team := "ไม่มีทีม" } (by decide)

/-- A list always begins with itself, whatever follows. -/
theorem listBeginsWith_refl_append : ∀ (p t : List Char), listBeginsWith p (p ++ t) = true
  | [], _ => rfl
  | a :: as, t => by simp [listBeginsWith, listBeginsWith_refl_append as t]

/-- `(p ++ s).startsWith(p)` is always true. -/
theorem jsStartsWith_append (p s : String) : jsStartsWith (p ++ s) p = true := by
  unfold jsStartsWith
  rw [String.data_append]
  exact listBeginsWith_refl_append _ _

/-- `findIndex` misses when no row satisfies the predicate. -/
theorem updateFirstJob_none (p : JobRec → Bool) (f : JobRec → JobRec) :
    ∀ jobs : List JobRec, (∀ x ∈ jobs, p x = false) → updateFirstJob p f jobs = none := by
  intro jobs
  induction jobs with
  | nil => intro _; rfl
  | cons j rest ih =>
    intro h
    simp [updateFirstJob, h j (List.mem_cons_self _ _), ih (fun x hx => h x (List.mem_cons_of_mem _ hx))]

/-- `createSingleDateEvent` leaves the store untouched when no stored row
has the job's id: the write-back's `findIndex` misses, `updateJobEventId`
throws `not found`, and the error is caught. -/
theorem createSingle_store_unchanged (cal : CalState) (st : SheetStore) (j : JobRec)
    (cid : String) (hid : ∀ x ∈ st.jobs, x.job_id ≠ j.job_id) :
    ∀ oe cal' st', createSingleDateEvent cal st j cid = Except.ok (oe, cal', st') → st' = st := by
  have hwb : ∀ eid, tryWriteBack st j.job_id eid = st := by
    intro eid
    unfold tryWriteBack updateJobEventId
    rw [updateFirstJob_none _ _ st.jobs (by
      intro x hx
      simp [hid x hx])]
  intro oe cal' st'
  unfold createSingleDateEvent
  split_ifs with h1 h2
  · intro h
    simp only [Except.ok.injEq, Prod.mk.injEq] at h
    exact h.2.2.symm
  · cases hf : findExistingEvent cal cid j.job_id with
    | some ex =>
      intro h
      simp only [Except.ok.injEq, Prod.mk.injEq] at h
      exact h.2.2.symm.trans (hwb ex.id)
    | none =>
      intro h
      simp only [Except.ok.injEq, Prod.mk.injEq] at h
      exact h.2.2.symm.trans (hwb (freshEventId cal))
  · intro h; exact absurd h (by simp)

/-- The range loop never changes the store when no stored row carries a
derived id of this job. -/
theorem rangeLoop_store_unchanged (job : JobRec) (cid : String)
    (hno : ∀ x : JobRec, ∀ s : String, x.job_id = job.job_id ++ "-" ++ s →
      jsStartsWith x.job_id (job.job_id ++ "-") = true) :
    ∀ (days : List Int) (cal : CalState) (st : SheetStore),
      (∀ x ∈ st.jobs, jsStartsWith x.job_id (job.job_id ++ "-") = false) →
      ∀ es cal' st', rangeLoop job cid days cal st = Except.ok (es, cal', st') → st' = st := by
  intro days
  induction days with
  | nil =>
    intro cal st _ es cal' st' h
    simp only [rangeLoop, Except.ok.injEq, Prod.mk.injEq] at h
    exact h.2.2.symm
  | cons d ds ih =>
    intro cal st hst es cal' st' h
    simp only [rangeLoop] at h
    cases hc : createSingleDateEvent cal st
        { job with date := renderDay d, job_id := job.job_id ++ "-" ++ renderDay d } cid with
    | error e => rw [hc] at h; simp at h
    | ok t =>
      obtain ⟨oe, cal1, st1⟩ := t
      rw [hc] at h
      simp only [Except.ok.injEq] at h
      have hst1 : st1 = st := by
        refine createSingle_store_unchanged cal st _ cid ?_ oe cal1 st1 hc
        intro x hx hcon
        have hsw := hno x (renderDay d) (by simpa using hcon)
        rw [hst x hx] at hsw
        exact Bool.noConfusion hsw
      cases hrec : rangeLoop job cid ds cal1 st1 with
      | error e => rw [hrec] at h; simp at h
      | ok t2 =>
        obtain ⟨es2, cal2, st2⟩ := t2
        rw [hrec] at h
        have hst2 : st2 = st1 := ih cal1 st1 (by rw [hst1]; exact hst) es2 cal2 st2 hrec
        simp only [Except.ok.injEq, Prod.mk.injEq] at h
        rw [← h.2.2, hst2]
        exact hst1

/-- C10: for every date-range job, each per-day event is created under the
derived id `"{job_id}-{date}"`; the post-create write-back targets that
derived id, which (when no stored row starts with `"{job_id}-"`) matches no
JobRecord, so `updateJobEventId` throws `not found`, the error is caught and
only logged, and the store — in particular every stored `eventId` — is left
unchanged by the whole range sync. -/
theorem claim10_range_writeback (cal : CalState) (st : SheetStore) (job : JobRec)
    (cid : String)
    (hno : ∀ x ∈ st.jobs, jsStartsWith x.job_id (job.job_id ++ "-") = false) :
    ∀ es cal' st', createDateRangeEvents cal st job cid = Except.ok (es, cal', st') →
      st' = st := by
  intro es cal' st' h
  unfold createDateRangeEvents at h
  split_ifs at h with h1
  cases hs : parseDate job.start_date with
  | none => rw [hs] at h; exact absurd h (by simp)
  | some a =>
    cases he : parseDate job.end_date with
    | none => rw [hs, he] at h; exact absurd h (by simp)
    | some b =>
      rw [hs, he] at h
      refine rangeLoop_store_unchanged job cid ?_ (dayRange a b) cal st hno es cal' st' h
      intro x s hx
      rw [hx]
      exact jsStartsWith_append _ _

/-- Witness for C10: the range job's own record (and an unrelated one) keep
their (empty) eventId across a successful 3-day range sync. -/
theorem claim10_witness :
    ∃ es cal',
      createDateRangeEvents calFx { jobs := [jobRangeFx, jobSingleFx] } jobRangeFx "QA"
        = Except.ok (es, cal', { jobs := [jobRangeFx, jobSingleFx] }) := by
  cases hr : createDateRangeEvents calFx { jobs := [jobRangeFx, jobSingleFx] } jobRangeFx "QA" with
  | error e =>
    have hok : (createDateRangeEvents calFx { jobs := [jobRangeFx, jobSingleFx] }
        jobRangeFx "QA").toOption.isSome = true := by decide
    rw [hr] at hok
    simp [Except.toOption] at hok
  | ok t =>
    obtain ⟨es, cal', st'⟩ := t
    have hst := claim10_range_writeback calFx { jobs := [jobRangeFx, jobSingleFx] } jobRangeFx
      "QA" (by decide) es cal' st' hr
    exact ⟨es, cal', by rw [hst]⟩

/-- Strings with equal character data are equal. -/
theorem string_data_ext {s t : String} (h : s.data = t.data) : s = t :=
  congrArg String.mk h

/-- A rendered day is never the empty string. -/
theorem renderDay_ne_empty (z : Int) : renderDay z ≠ "" := by
  intro h
  have h2 := congrArg String.length h
  unfold renderDay at h2
  simp only [String.length_append, show ("-" : String).length = 1 from rfl,
    show ("" : String).length = 0 from rfl] at h2
  omega

/-- A single-date creation with a date and valid times returns an event
whose title is `"{job_id}: {customer}"` (on both the update and the insert
path). -/
theorem createSingle_ok (cal : CalState) (st : SheetStore) (j : JobRec) (cid : String)
    (hd : j.date ≠ "") (hok : datesOk j = true) :
    ∃ e cal' st', createSingleDateEvent cal st j cid = Except.ok (some e, cal', st') ∧
      e.summary = j.job_id ++ ": " ++ strOr j.customer (strOr j.customer_name "ลูกค้า") := by
  unfold createSingleDateEvent
  rw [if_neg hd, if_pos hok]
  cases hf : findExistingEvent cal cid j.job_id with
  | some ex => exact ⟨_, _, _, rfl, rfl⟩
  | none => exact ⟨_, _, _, rfl, rfl⟩

/-- The range loop yields one event per day, titled with the derived id. -/
theorem rangeLoop_events (job : JobRec) (cid : String)
    (ht1 : timeValid (effStart job) = true) (ht2 : timeValid (effEnd job) = true) :
    ∀ (days : List Int) (cal : CalState) (st : SheetStore),
      (∀ d ∈ days, parseDate (renderDay d) = some d) →
      ∃ es cal' st', rangeLoop job cid days cal st = Except.ok (es, cal', st') ∧
        es.map (fun e => e.summary)
          = days.map (fun d => job.job_id ++ "-" ++ renderDay d ++ ": "
              ++ strOr job.customer (strOr job.customer_name "ลูกค้า")) := by
  intro days
  induction days with
  | nil => intro cal st _; exact ⟨[], cal, st, rfl, rfl⟩
  | cons d ds ih =>
    intro cal st hdays
    have hdd := hdays d (List.mem_cons_self _ _)
    have ht1' : timeValid (effStart
        { job with date := renderDay d, job_id := job.job_id ++ "-" ++ renderDay d }) = true := ht1
    have ht2' : timeValid (effEnd
        { job with date := renderDay d, job_id := job.job_id ++ "-" ++ renderDay d }) = true := ht2
    have hok : datesOk
        { job with date := renderDay d, job_id := job.job_id ++ "-" ++ renderDay d } = true := by
      unfold datesOk
      simp [hdd, ht1', ht2']
    obtain ⟨e, cal1, st1, hc, hsum⟩ := createSingle_ok cal st
      { job with date := renderDay d, job_id := job.job_id ++ "-" ++ renderDay d } cid
      (by simp [renderDay_ne_empty d]) hok
    obtain ⟨es2, cal2, st2, hrec, hmap2⟩ := ih cal1 st1
      (fun x hx => hdays x (List.mem_cons_of_mem _ hx))
    refine ⟨e :: es2, cal2, st2, ?_, ?_⟩
    · simp only [rangeLoop]
      rw [hc]
      simp only [hrec]
    · simp only [List.map_cons, hmap2, hsum]

/-- C6: for every range job with mapped team and valid `YYYY-MM-DD` bounds
(and times that compose validly), sync returns one event per calendar day
from `start_date` to `end_date` inclusive — `b − a + 1` events when
`a ≤ b` — each titled with the derived identifier `"{job_id}-{date}"`, and
those derived identifiers are pairwise distinct. -/
theorem claim6_range_expansion (env : EnvCfg) (cal : CalState) (st : SheetStore) (job : JobRec)
    (cid : String) (a b : Int)
    (hmap : calendarIdsLookup env (fixTeamName job.team) = cid) (hcid : cid ≠ "")
    (hty : job.date_type = "range") (hsne : job.start_date ≠ "") (hene : job.end_date ≠ "")
    (hs : parseDate job.start_date = some a) (he : parseDate job.end_date = some b)
    (hdays : ∀ d ∈ dayRange a b, parseDate (renderDay d) = some d)
    (ht1 : timeValid (effStart job) = true) (ht2 : timeValid (effEnd job) = true) :
    ∃ es cal' st',
      syncJobToCalendar env cal st job = Except.ok (SyncOutcome.rangeEvents es, cal', st') ∧
      es.map (fun e => e.summary)
        = (dayRange a b).map (fun d => job.job_id ++ "-" ++ renderDay d ++ ": "
            ++ strOr job.customer (strOr job.customer_name "ลูกค้า")) ∧
      es.length = (dayRange a b).length ∧
      (a ≤ b → es.length = (b - a + 1).toNat) ∧
      ((dayRange a b).map (fun d => job.job_id ++ "-" ++ renderDay d)).Nodup := by
  obtain ⟨es, cal', st', hloop, hmap2⟩ :=
    rangeLoop_events job cid ht1 ht2 (dayRange a b) cal st hdays
  have hrange : createDateRangeEvents cal st job cid = Except.ok (es, cal', st') := by
    unfold createDateRangeEvents
    rw [if_neg (not_or.mpr ⟨hsne, hene⟩), hs, he]
    exact hloop
  have hlen : es.length = (dayRange a b).length := by
    have h3 := congrArg List.length hmap2
    simpa using h3
  refine ⟨es, cal', st', ?_, hmap2, hlen, ?_, ?_⟩
  · simp only [syncJobToCalendar]
    rw [hmap, if_neg hcid, if_pos ⟨hty, hsne, hene⟩]
    simp only [hrange]
  · intro hab
    rw [hlen]
    unfold dayRange
    rw [if_pos hab, List.length_map, List.length_range]
  · have hinj : ∀ x ∈ dayRange a b, ∀ y ∈ dayRange a b,
        job.job_id ++ "-" ++ renderDay x = job.job_id ++ "-" ++ renderDay y → x = y := by
      intro x hx y hy hxy
      have hdx := congrArg String.data hxy
      rw [String.data_append, String.data_append] at hdx
      have hr : renderDay x = renderDay y :=
        string_data_ext (List.append_cancel_left hdx)
      have hxv := hdays x hx
      rw [hr, hdays y hy] at hxv
      injection hxv with hv
      exact hv.symm
    have hnd : (dayRange a b).Nodup := by
      unfold dayRange
      split_ifs with hab
      · refine List.Nodup.map ?_ (List.nodup_range _)
        intro k1 k2 hk
        simp only [] at hk
        omega
      · exact List.nodup_nil
    exact hnd.map_on hinj

/-- Witness for C6 at `2025-08-01 … 2025-08-03`: exactly 3 per-day events
with distinct derived identifiers. -/
theorem claim6_witness :
    ∃ es cal' st',
      syncJobToCalendar envFx calFx { jobs := [] } jobRangeFx
        = Except.ok (SyncOutcome.rangeEvents es, cal', st') ∧
      es.map (fun e => e.summary)
        = (dayRange 20301 20303).map (fun d => jobRangeFx.job_id ++ "-" ++ renderDay d ++ ": "
            ++ strOr jobRangeFx.customer (strOr jobRangeFx.customer_name "ลูกค้า")) ∧
      es.length = (dayRange 20301 20303).length ∧
      ((20301 : Int) ≤ 20303 → es.length = ((20303 : Int) - 20301 + 1).toNat) ∧
      ((dayRange 20301 20303).map (fun d => jobRangeFx.job_id ++ "-" ++ renderDay d)).Nodup :=
  claim6_range_expansion envFx calFx { jobs := [] } jobRangeFx "QA" 20301 20303
    (by decide) (by decide) (by decide) (by decide) (by decide) (by decide) (by decide)
    (by decide) (by decide) (by decide)

/-- A char list occurs in itself followed by anything. -/
theorem listHasInfix_self_append : ∀ (p t : List Char), listHasInfix p (p ++ t) = true
  | [], [] => rfl
  | [], _ :: _ => by simp [listHasInfix, listBeginsWith]
  | a :: as, t => by
    have hb := listBeginsWith_refl_append (a :: as) t
    rw [List.cons_append] at hb
    simp [List.cons_append, listHasInfix, hb]

/-- `(p ++ s).includes(p)` is always true. -/
theorem jsIncludes_self_append (p s : String) : jsIncludes (p ++ s) p = true := by
  unfold jsIncludes
  rw [String.data_append]
  exact listHasInfix_self_append _ _

/-- After `replaceAssoc`, the key maps to the new event list. -/
theorem find_replaceAssoc (cid : String) (evs : List GEvent) :
    ∀ l, (replaceAssoc l cid evs).find? (fun p => p.1 = cid) = some (cid, evs) := by
  intro l
  induction l with
  | nil => simp [replaceAssoc, List.find?]
  | cons e rest ih =>
    by_cases hk : e.1 = cid
    · simp [replaceAssoc, hk, List.find?_cons]
    · simp [replaceAssoc, hk, List.find?_cons, ih]

/-- Writing the same event list twice is the same as writing it once. -/
theorem replaceAssoc_idem (cid : String) (evs : List GEvent) :
    ∀ l, replaceAssoc (replaceAssoc l cid evs) cid evs = replaceAssoc l cid evs := by
  intro l
  induction l with
  | nil => simp [replaceAssoc]
  | cons e rest ih =>
    by_cases hk : e.1 = cid
    · simp [replaceAssoc, hk]
    · simp [replaceAssoc, hk, ih]

/-- Mapping a function that fixes every element is the identity. -/
theorem list_map_self {α : Type} (f : α → α) :
    ∀ l : List α, (∀ x ∈ l, f x = x) → l.map f = l := by
  intro l
  induction l with
  | nil => intro _; rfl
  | cons a t ih =>
    intro h
    simp only [List.map_cons, h a (List.mem_cons_self _ _),
      ih (fun x hx => h x (List.mem_cons_of_mem _ hx))]

/-- Reading a calendar right after writing it. -/
theorem getEvents_setEvents (c : CalState) (cid : String) (evs : List GEvent) :
    getEvents (setEvents c cid evs) cid = evs := by
  unfold getEvents setEvents
  rw [find_replaceAssoc]

/-- Writing back a calendar's own event list changes nothing, provided the
calendar key is present (here: the state is itself a `replaceAssoc` image). -/
theorem setEvents_self (c : CalState) (cid : String) (l : List (String × List GEvent))
    (evs : List GEvent) (h : c.cals = replaceAssoc l cid evs) :
    setEvents c cid (getEvents c cid) = c := by
  have hg : getEvents c cid = evs := by
    unfold getEvents
    rw [h, find_replaceAssoc]
  rw [hg]
  unfold setEvents
  rw [h, replaceAssoc_idem]
  rw [← h]

/-- C1 (§4.3, §8 P2): for a job whose (repaired) team resolves to a queue
calendar, with a usable single date and valid times, syncing against a
calendar holding no event that mentions the job id inserts one event;
syncing the unchanged job again finds that event by its title and updates
it in place — the same event comes back (same `eventId`), the calendar
state is unchanged, and exactly one event's title contains the `job_id`.
(`hfresh`: the pre-existing events do not collide with the id the model
mints next.) -/
theorem claim1_sync_upsert_idempotent (env : EnvCfg) (cal : CalState) (st : SheetStore)
    (job : JobRec) (cid : String)
    (hmap : calendarIdsLookup env (fixTeamName job.team) = cid) (hcid : cid ≠ "")
    (hrange : job.date_type ≠ "range")
    (hdate : job.date ≠ "") (hok : datesOk job = true)
    (hclean : ∀ e ∈ getEvents cal cid, qMatch e job.job_id = false)
    (hfresh : ∀ e ∈ getEvents cal cid, e.id ≠ freshEventId cal) :
    ∃ e1 cal1 st1 st2,
      syncJobToCalendar env cal st job = Except.ok (SyncOutcome.singleEvent e1, cal1, st1) ∧
      syncJobToCalendar env cal1 st1 job = Except.ok (SyncOutcome.singleEvent e1, cal1, st2) ∧
      e1.id = freshEventId cal ∧
      countMatching cal1 cid job.job_id = 1 := by
  have hguard : ¬(job.date_type = "range" ∧ job.start_date ≠ "" ∧ job.end_date ≠ "") :=
    fun h => hrange h.1
  have hfind1 : findExistingEvent cal cid job.job_id = none := by
    unfold findExistingEvent
    rw [List.filter_eq_nil.mpr (fun e he => by rw [hclean e he]; simp)]
    rfl
  have hc1 : createSingleDateEvent cal st job cid =
      Except.ok (some (mintedEvent cal job),
        insertEvent cal cid (buildPayload job),
        tryWriteBack st job.job_id (freshEventId cal)) := by
    unfold createSingleDateEvent
    rw [if_neg hdate, if_pos hok, hfind1]
    rfl
  refine ⟨mintedEvent cal job,
    insertEvent cal cid (buildPayload job),
    tryWriteBack st job.job_id (freshEventId cal),
    tryWriteBack (tryWriteBack st job.job_id (freshEventId cal)) job.job_id (freshEventId cal),
    ?_, ?_, rfl, ?_⟩
  · simp only [syncJobToCalendar]
    rw [hmap, if_neg hcid, if_neg hguard]
    simp only [hc1]
  · have hev1 : getEvents (insertEvent cal cid (buildPayload job)) cid =
        getEvents cal cid ++ [mintedEvent cal job] := by
      unfold insertEvent
      exact getEvents_setEvents _ _ _
    have hqE : jsIncludes (mintedEvent cal job).summary job.job_id = true := by
      show jsIncludes (job.job_id ++ ": "
        ++ strOr job.customer (strOr job.customer_name "ลูกค้า")) job.job_id = true
      rw [String.append_assoc]
      exact jsIncludes_self_append _ _
    have hqmE : qMatch (mintedEvent cal job) job.job_id = true := by
      unfold qMatch
      rw [hqE]
      simp
    have hfind2 : findExistingEvent (insertEvent cal cid (buildPayload job)) cid job.job_id
        = some (mintedEvent cal job) := by
      unfold findExistingEvent
      rw [hev1, List.filter_append,
        List.filter_eq_nil.mpr (fun e he => by rw [hclean e he]; simp)]
      simp [hqmE, hqE]
    have hmapid : (getEvents (insertEvent cal cid (buildPayload job)) cid).map
        (fun e => if e.id = freshEventId cal then
          { buildPayload job with id := freshEventId cal } else e)
        = getEvents (insertEvent cal cid (buildPayload job)) cid := by
      rw [hev1]
      refine list_map_self _ _ ?_
      intro x hx
      rcases List.mem_append.mp hx with hx1 | hx2
      · rw [if_neg (hfresh x hx1)]
      · simp only [List.mem_singleton] at hx2
        subst hx2
        rw [if_pos (show (mintedEvent cal job).id = freshEventId cal from rfl)]
        rfl
    have hupd : updateEvent (insertEvent cal cid (buildPayload job)) cid
        (freshEventId cal) (buildPayload job) = insertEvent cal cid (buildPayload job) := by
      unfold updateEvent
      rw [hmapid]
      exact setEvents_self _ cid cal.cals (getEvents cal cid ++ [mintedEvent cal job]) rfl
    have hid : (mintedEvent cal job).id = freshEventId cal := rfl
    have hc2 : createSingleDateEvent (insertEvent cal cid (buildPayload job))
        (tryWriteBack st job.job_id (freshEventId cal)) job cid =
        Except.ok (some (mintedEvent cal job),
          insertEvent cal cid (buildPayload job),
          tryWriteBack (tryWriteBack st job.job_id (freshEventId cal)) job.job_id
            (freshEventId cal)) := by
      unfold createSingleDateEvent
      rw [if_neg hdate, if_pos hok, hfind2]
      show Except.ok (some { buildPayload job with id := (mintedEvent cal job).id },
          updateEvent (insertEvent cal cid (buildPayload job)) cid (mintedEvent cal job).id
            (buildPayload job),
          tryWriteBack (tryWriteBack st job.job_id (freshEventId cal)) job.job_id
            (mintedEvent cal job).id) = _
      rw [hid, hupd]
      rfl
    simp only [syncJobToCalendar]
    rw [hmap, if_neg hcid, if_neg hguard]
    simp only [hc2]
  · unfold countMatching
    rw [show getEvents (insertEvent cal cid (buildPayload job)) cid =
        getEvents cal cid ++ [mintedEvent cal job] from by
      unfold insertEvent; exact getEvents_setEvents _ _ _]
    rw [List.filter_append]
    rw [List.filter_eq_nil.mpr (fun e he => by
      have h5 := hclean e he
      unfold qMatch at h5
      simp only [Bool.or_eq_false_iff] at h5
      rw [h5.1.1]
      simp)]
    have hqE1 : jsIncludes (mintedEvent cal job).summary job.job_id = true := by
      show jsIncludes (job.job_id ++ ": "
        ++ strOr job.customer (strOr job.customer_name "ลูกค้า")) job.job_id = true
      rw [String.append_assoc]
      exact jsIncludes_self_append _ _
    simp [hqE1]

/-- C1 witness: the fixture job against the empty `QA` calendar. -/
theorem claim1_witness :
    ∃ e1 cal1 st1 st2,
      syncJobToCalendar envFx calFx stSyncFx jobSingleFx
        = Except.ok (SyncOutcome.singleEvent e1, cal1, st1) ∧
      syncJobToCalendar envFx cal1 st1 jobSingleFx
        = Except.ok (SyncOutcome.singleEvent e1, cal1, st2) ∧
      e1.id = freshEventId calFx ∧
      countMatching cal1 "QA" jobSingleFx.job_id = 1 :=
  claim1_sync_upsert_idempotent envFx calFx stSyncFx jobSingleFx "QA"
    (by decide) (by decide) (by decide) (by decide) (by decide) (by decide) (by decide)
